import Mathlib

/-!
# Verification of the medical-record ingestion core

A shallow embedding, in Lean 4, of the parsing and graph-mutation core of
the `mya_view_beta` repository:

* `backend/app/services/ccd_parser.py` — the C-CDA/XML structured parser
  (`CCDParser`), including the HL7 date normalizer `_format_hl7_date`;
* `backend/app/services/ingestion.py` — the narrative/markdown parser
  (`MedicalDocumentParser`), alias derivation (`generate_name_aliases`) and
  the graph mutation generator (`generate_neo4j_queries`);
* `backend/app/routers/ccd.py` — the per-section CCD importers
  (`_import_medications` et al.);
* `scripts/import_checkpoint.py` — the checkpoint codec import side
  (`parse_checkpoint`, `import_checkpoint`).

Python strings are modelled as `List Char` (with `String` wrappers at the
API boundary); Python `None`-able values as `Option`; the external Neo4j
store as an explicit graph state acted on by upsert operations with
Cypher `MERGE`/`SET`/`ON CREATE SET` semantics.  The Cypher `date()`
conversion is modelled as carrying the date string itself: no claim below
depends on the store's internal date representation.
-/

namespace MyaView

/-! ## Python string primitives

Helpers mirroring the exact Python string operations used by the sources:
`str.strip`, `str.split` (with and without separator), `str.lower`,
`str.replace`, substring containment, `startswith`. All are defined on
`List Char`. -/

/-- Python `\s` / `str.strip` whitespace (ASCII subset used by the data). -/
def isPySpace (c : Char) : Bool :=
  c = ' ' || c = '\t' || c = '\n' || c = '\r' || c = '\x0c' || c = '\x0b'

/-- `str.strip()`: drop leading and trailing whitespace. -/
def pyStrip (cs : List Char) : List Char :=
  ((cs.dropWhile isPySpace).reverse.dropWhile isPySpace).reverse

/-- Python `str.lower` restricted to ASCII (all inputs of interest are ASCII). -/
def pyLowerChar (c : Char) : Char :=
  if 'A' ≤ c ∧ c ≤ 'Z' then Char.ofNat (c.toNat + 32) else c

def pyLower (cs : List Char) : List Char := cs.map pyLowerChar

/-- Python `str.upper` restricted to ASCII. -/
def pyUpperChar (c : Char) : Char :=
  if 'a' ≤ c ∧ c ≤ 'z' then Char.ofNat (c.toNat - 32) else c

def pyUpper (cs : List Char) : List Char := cs.map pyUpperChar

/-- `str.replace(old, new)` for single characters. -/
def pyReplaceChar (cs : List Char) (old new : Char) : List Char :=
  cs.map (fun c => if c = old then new else c)

/-- `str.split(sep)` on a single-character separator: keeps empty pieces. -/
def splitChar (sep : Char) (cs : List Char) : List (List Char) :=
  match cs with
  | [] => [[]]
  | c :: rest =>
    let r := splitChar sep rest
    if c = sep then [] :: r
    else
      match r with
      | [] => [[c]]
      | p :: ps => (c :: p) :: ps

/-- Python `str.split()` (no argument): split on whitespace runs, dropping
empty pieces. -/
def pySplitWs (cs : List Char) : List (List Char) :=
  match cs with
  | [] => []
  | c :: rest =>
    if isPySpace c then pySplitWs rest
    else
      match pySplitWs rest with
      | [] => [[c]]
      | p :: ps =>
        match rest with
        | [] => [[c]]
        | d :: _ => if isPySpace d then [c] :: p :: ps else (c :: p) :: ps

/-- `needle in haystack` prefix test: does `cs` start with `pre`? -/
def startsWith : (pre cs : List Char) → Bool
  | [], _ => true
  | _ :: _, [] => false
  | p :: ps, c :: cs => p = c && startsWith ps cs

/-- Python `needle in haystack` substring containment. -/
def containsSub (needle : List Char) : List Char → Bool
  | [] => startsWith needle []
  | c :: cs => startsWith needle (c :: cs) || containsSub needle cs

/-- Case-insensitive prefix test (for `re.IGNORECASE` literals). -/
def startsWithCI : (pre cs : List Char) → Bool
  | [], _ => true
  | _ :: _, [] => false
  | p :: ps, c :: cs => pyLowerChar p = pyLowerChar c && startsWithCI ps cs

/-- First word of a Python `s.split()` result, or `""` if there is none. -/
def firstWordD (cs : List Char) : List Char := (pySplitWs cs).headD []

/-- Python truthiness `x or y` for an optional string: `None` and `""` both
fall through to the default. -/
def pyOr (o : Option (List Char)) (fb : List Char) : List Char :=
  match o with
  | some s => if s.isEmpty then fb else s
  | none => fb

/-! ## The HL7 date normalizer

`CCDParser._format_hl7_date` from `ccd_parser.py`: strip a timezone by
taking the text before the first `+` and then before the first `-`, and,
when at least 8 characters remain, render the first 8 as `cccc-cc-cc`. A
shorter remainder (or an empty/`None` input) yields `None`. -/

/-- `date_str.split('+')[0].split('-')[0]`. -/
def stripTz (cs : List Char) : List Char :=
  (cs.takeWhile (· ≠ '+')).takeWhile (· ≠ '-')

/-- `CCDParser._format_hl7_date`. -/
def formatHl7Date (o : Option String) : Option String :=
  match o with
  | none => none
  | some s =>
    if s.isEmpty then none
    else
      let t := stripTz s.data
      if 8 ≤ t.length then
        some (String.mk (t.take 4 ++ '-' :: (t.drop 4).take 2 ++ '-' :: (t.drop 6).take 2))
      else none

/-! ## XML document model

`xml.etree.ElementTree` trees, as consumed by `CCDParser`.  An element has
a (namespace-qualified) tag, attributes, children in document order, and
optional text.  The parser's `'hl7:x'` lookups resolve, through the
`NAMESPACES` table, to the qualified tag `{urn:hl7-org:v3}x`; `h7` performs
that resolution.  `ElementTree`'s element truthiness (`if not section:` is
taken when the element has no children) is modelled by `truthy`. -/

inductive XElem where
  | mk (tag : String) (attrs : List (String × String)) (children : List XElem)
      (text : Option String)
deriving Repr

def XElem.tag : XElem → String
  | .mk t _ _ _ => t

def XElem.attrs : XElem → List (String × String)
  | .mk _ a _ _ => a

def XElem.children : XElem → List XElem
  | .mk _ _ c _ => c

def XElem.text : XElem → Option String
  | .mk _ _ _ t => t

/-- `element.get(key)`. -/
def XElem.attr (e : XElem) (k : String) : Option String :=
  (e.attrs.find? (fun p => p.1 = k)).map (·.2)

/-- `element.get(key, default)`. -/
def XElem.attrD (e : XElem) (k d : String) : String :=
  (e.attr k).getD d

/-- ElementTree element truthiness: an element is truthy iff it has children. -/
def XElem.truthy (e : XElem) : Bool :=
  !e.children.isEmpty

mutual

/-- All strict descendants of an element, in document (preorder) order. -/
def XElem.descs : XElem → List XElem
  | .mk _ _ children _ => XElem.descsList children

def XElem.descsList : List XElem → List XElem
  | [] => []
  | c :: rest => c :: c.descs ++ XElem.descsList rest

end

/-- Resolve an `hl7:`-prefixed tag to its namespace-qualified form. -/
def h7 (s : String) : String :=
  "\x7burn:hl7-org:v3\x7d" ++ s

/-- An XPath step: a tag plus an optional attribute predicate
(`[@k="v"]`).  These are the predicate forms ElementTree's limited XPath
actually evaluates; a `not(@k)` predicate is NOT in that subset and makes
`find` raise `SyntaxError: invalid predicate`, so it has no constructor
here (see `parseMedEntry`). -/
inductive APred where
  | any
  | eq (k v : String)
deriving Repr, DecidableEq

structure Step where
  tag : String
  pred : APred := .any
deriving Repr, DecidableEq

def predHolds (e : XElem) : APred → Bool
  | .any => true
  | .eq k v => e.attr k == some v

def stepMatches (e : XElem) (st : Step) : Bool :=
  e.tag == st.tag && predHolds e st.pred

/-- `findall` over the limited XPath subset ElementTree supports:
`desc = true` renders a leading `.//` (the first step ranges over all
descendants), after which each step selects matching children. -/
def findAllPath (e : XElem) (desc : Bool) : List Step → List XElem
  | [] => []
  | s0 :: rest =>
    let first := if desc then e.descs.filter (stepMatches · s0)
                 else e.children.filter (stepMatches · s0)
    rest.foldl (fun es st => es.flatMap (fun x => x.children.filter (stepMatches · st))) first

/-- `element.find(path)`: first match in document order. -/
def findPath (e : XElem) (desc : Bool) (steps : List Step) : Option XElem :=
  (findAllPath e desc steps).head?

/-- `CCDParser._get_text`: text of a named child, with `None` for a missing
parent, missing child, missing text or empty text. -/
def getText (parent : Option XElem) (tag : String) : Option String :=
  match parent with
  | none => none
  | some p =>
    match findPath p false [⟨tag, .any⟩] with
    | none => none
    | some e =>
      match e.text with
      | some t => if t.isEmpty then none else some t
      | none => none

/-- Python truthiness of an optional string (`None` and `""` are falsy). -/
def pyTruthyS (o : Option String) : Bool :=
  match o with
  | some s => !s.isEmpty
  | none => false

/-- Python `x or y` on an optional string (`None`/`""` fall through). -/
def pyOrS (o : Option String) (fb : String) : String :=
  match o with
  | some s => if s.isEmpty then fb else s
  | none => fb

/-- f-string rendering of a Python value that may be `None`. -/
def strOfOpt (o : Option String) : String :=
  match o with
  | some s => s
  | none => "None"

/-! ## CCD parser output records (`ccd_parser.py` dictionaries) -/

structure DemographicsR where
  given_name : Option String
  family_name : Option String
  full_name : Option String
  birth_date : Option String
  gender : Option String
  address : Option String
deriving Repr, DecidableEq

structure MedR where
  name : Option String
  rxnorm_code : Option String
  dosage : Option String
  frequency : Option String
  start_date : Option String
  end_date : Option String
  status : Option String
deriving Repr, DecidableEq

structure AllergyR where
  allergen : Option String
  allergen_code : Option String
  reaction : Option String
  severity : Option String
deriving Repr, DecidableEq

structure ProblemR where
  name : String
  icd10_code : Option String
  diagnosed_date : Option String
  resolved_date : Option String
  status : Option String
deriving Repr, DecidableEq

structure ProcedureR where
  name : String
  cpt_code : Option String
  date : Option String
deriving Repr, DecidableEq

structure LabResultR where
  test : String
  value : Option String
  unit : Option String
  reference_range : Option String
deriving Repr, DecidableEq

structure LabPanelR where
  panel : Option String
  date : Option String
  results : List LabResultR
deriving Repr, DecidableEq

structure ImmunizationR where
  vaccine : String
  cvx_code : Option String
  date : Option String
deriving Repr, DecidableEq

structure VitalSetR where
  date : Option String
  measurements : List (String × Option String)
deriving Repr, DecidableEq

structure MetadataR where
  document_id : Option String
  title : Option String
  date : Option String
  source_organization : Option String
deriving Repr, DecidableEq

structure ParseResult where
  demographics : Option DemographicsR
  medications : List MedR
  allergies : List AllergyR
  problems : List ProblemR
  procedures : List ProcedureR
  lab_results : List LabPanelR
  immunizations : List ImmunizationR
  vital_signs : List VitalSetR
  metadata : MetadataR
deriving Repr, DecidableEq

/-! ## Section template identifiers (`CCDParser`'s fixed catalog) -/

def medicationsTid : String := "2.16.840.1.113883.10.20.22.2.1.1"
def allergiesTid : String := "2.16.840.1.113883.10.20.22.2.6.1"
def problemsTid : String := "2.16.840.1.113883.10.20.22.2.5.1"
def proceduresTid : String := "2.16.840.1.113883.10.20.22.2.7.1"
def resultsTid : String := "2.16.840.1.113883.10.20.22.2.3.1"
def immunizationsTid : String := "2.16.840.1.113883.10.20.22.2.2.1"
def vitalSignsTid : String := "2.16.840.1.113883.10.20.22.2.4.1"

/-- `CCDParser._find_section`: the first `.//hl7:section` descendant (in
document order) holding an `hl7:templateId` child whose `root` attribute is
the given identifier. -/
def findSection (root : XElem) (tid : String) : Option XElem :=
  (root.descs.filter (fun s => s.tag == h7 "section")).find?
    (fun s => (findPath s false [⟨h7 "templateId", .eq "root" tid⟩]).isSome)

/-! ## Section parsers -/

/-- `CCDParser._parse_demographics`. -/
def parseDemographics (root : XElem) : Option DemographicsR :=
  match findPath root true [⟨h7 "recordTarget", .any⟩, ⟨h7 "patientRole", .any⟩] with
  | none => none
  | some patientRole =>
    if !patientRole.truthy then none
    else
      match findPath patientRole false [⟨h7 "patient", .any⟩] with
      | none => none
      | some patient =>
        if !patient.truthy then none
        else
          let nameElem := findPath patient false [⟨h7 "name", .any⟩]
          let given := getText nameElem (h7 "given")
          let family := getText nameElem (h7 "family")
          let birthTime := findPath patient false [⟨h7 "birthTime", .any⟩]
          let birthDate := birthTime.bind (·.attr "value")
          let gender := (findPath patient false [⟨h7 "administrativeGenderCode", .any⟩]).bind
            (·.attr "displayName")
          let addr := findPath patientRole false [⟨h7 "addr", .any⟩]
          let addressParts :=
            match addr with
            | none => []
            | some a =>
              let street := getText (some a) (h7 "streetAddressLine")
              let city := getText (some a) (h7 "city")
              let state := getText (some a) (h7 "state")
              let zip := getText (some a) (h7 "postalCode")
              (if pyTruthyS street then [strOfOpt street] else []) ++
              (if pyTruthyS city && pyTruthyS state then
                [strOfOpt city ++ ", " ++ strOfOpt state ++ " " ++ pyOrS zip ""] else [])
          some
            { given_name := given
              family_name := family
              full_name :=
                if pyTruthyS given && pyTruthyS family then
                  some (strOfOpt given ++ " " ++ strOfOpt family)
                else none
              birth_date := formatHl7Date birthDate
              gender := gender
              address :=
                if addressParts.isEmpty then none
                else some (String.intercalate " " addressParts) }

/-- One `hl7:entry` of the medications section (`continue`-skips become
`none`).  After the two guard lookups, `_parse_medications` evaluates
`med_activity.find('.//hl7:effectiveTime[not(@operator)]')`
(ccd_parser.py line 164).  `not(@operator)` is not in ElementTree's
supported XPath subset: `find` raises `SyntaxError: invalid predicate`
before any record is built, the per-entry `except Exception` catches it
and `continue`s, so EVERY entry is skipped and the medications section
always parses to `[]`.  Hence this function returns `none`
unconditionally; the guard matches are kept because the source evaluates
them (and can `continue` at them) before reaching the raising lookup. -/
def parseMedEntry (entry : XElem) : Option MedR :=
  match findPath entry true [⟨h7 "substanceAdministration", .any⟩] with
  | none => none
  | some medActivity =>
    match findPath medActivity true
      [⟨h7 "consumable", .any⟩, ⟨h7 "manufacturedProduct", .any⟩,
       ⟨h7 "manufacturedMaterial", .any⟩] with
    | none => none
    | some _ => none

theorem parseMedEntry_eq_none (e : XElem) : parseMedEntry e = none := by
  unfold parseMedEntry
  repeat' split
  all_goals rfl

/-- `CCDParser._parse_medications`. -/
def parseMedications (root : XElem) : List MedR :=
  match findSection root medicationsTid with
  | none => []
  | some sec =>
    if !sec.truthy then []
    else (findAllPath sec true [⟨h7 "entry", .any⟩]).filterMap parseMedEntry

/-- One `hl7:entry` of the allergies section. -/
def parseAllergyEntry (entry : XElem) : Option AllergyR :=
  match findPath entry true [⟨h7 "observation", .any⟩] with
  | none => none
  | some obs =>
    match findPath obs true
      [⟨h7 "participant", .any⟩, ⟨h7 "participantRole", .any⟩,
       ⟨h7 "playingEntity", .any⟩] with
    | none => none
    | some participant =>
      let codeElem := findPath participant false [⟨h7 "code", .any⟩]
      let allergen := match codeElem with
        | some ce => ce.attr "displayName"
        | none => some "Unknown Allergen"
      let allergenCode := codeElem.bind (·.attr "code")
      let reaction :=
        match findPath obs true [⟨h7 "entryRelationship", .any⟩, ⟨h7 "observation", .any⟩] with
        | some reactionObs =>
          (findPath reactionObs false [⟨h7 "value", .any⟩]).bind (·.attr "displayName")
        | none => none
      let severity :=
        match findPath obs true
          [⟨h7 "entryRelationship", .eq "typeCode" "SUBJ"⟩, ⟨h7 "observation", .any⟩] with
        | some severityObs =>
          (findPath severityObs false [⟨h7 "value", .any⟩]).bind (·.attr "displayName")
        | none => none
      some { allergen := allergen, allergen_code := allergenCode
             reaction := reaction, severity := severity }

/-- `CCDParser._parse_allergies`. -/
def parseAllergies (root : XElem) : List AllergyR :=
  match findSection root allergiesTid with
  | none => []
  | some sec =>
    if !sec.truthy then []
    else (findAllPath sec true [⟨h7 "entry", .any⟩]).filterMap parseAllergyEntry

/-- One `hl7:entry` of the problems section. -/
def parseProblemEntry (entry : XElem) : Option ProblemR :=
  match findPath entry true [⟨h7 "observation", .any⟩] with
  | none => none
  | some obs =>
    match findPath obs false [⟨h7 "value", .any⟩] with
    | none => none
    | some valueElem =>
      let name := valueElem.attrD "displayName" "Unknown Condition"
      let icd10 := valueElem.attr "code"
      let effectiveTime := findPath obs false [⟨h7 "effectiveTime", .any⟩]
      let startDate :=
        match effectiveTime with
        | some et =>
          match findPath et false [⟨h7 "low", .any⟩] with
          | some low => formatHl7Date (low.attr "value")
          | none => none
        | none => none
      let endDate :=
        match effectiveTime with
        | some et =>
          match findPath et false [⟨h7 "high", .any⟩] with
          | some high => formatHl7Date (high.attr "value")
          | none => none
        | none => none
      let status :=
        match findPath obs false [⟨h7 "statusCode", .any⟩] with
        | some sc => sc.attr "code"
        | none => some "active"
      some { name := name, icd10_code := icd10, diagnosed_date := startDate
             resolved_date := endDate, status := status }

/-- `CCDParser._parse_problems`. -/
def parseProblems (root : XElem) : List ProblemR :=
  match findSection root problemsTid with
  | none => []
  | some sec =>
    if !sec.truthy then []
    else (findAllPath sec true [⟨h7 "entry", .any⟩]).filterMap parseProblemEntry

/-- One `hl7:entry` of the procedures section. -/
def parseProcedureEntry (entry : XElem) : Option ProcedureR :=
  match findPath entry true [⟨h7 "procedure", .any⟩] with
  | none => none
  | some procedure =>
    match findPath procedure false [⟨h7 "code", .any⟩] with
    | none => none
    | some codeElem =>
      let name := codeElem.attrD "displayName" "Unknown Procedure"
      let cpt := codeElem.attr "code"
      let date :=
        match findPath procedure false [⟨h7 "effectiveTime", .any⟩] with
        | some et => formatHl7Date (et.attr "value")
        | none => none
      some { name := name, cpt_code := cpt, date := date }

/-- `CCDParser._parse_procedures`. -/
def parseProcedures (root : XElem) : List ProcedureR :=
  match findSection root proceduresTid with
  | none => []
  | some sec =>
    if !sec.truthy then []
    else (findAllPath sec true [⟨h7 "entry", .any⟩]).filterMap parseProcedureEntry

/-- One `hl7:observation` of a results organizer. -/
def parseLabObservation (obs : XElem) : Option LabResultR :=
  match findPath obs false [⟨h7 "code", .any⟩], findPath obs false [⟨h7 "value", .any⟩] with
  | some code, some value =>
    let testName := code.attrD "displayName" "Unknown Test"
    let testValue := value.attr "value"
    let testUnit := value.attr "unit"
    let reference :=
      match findPath obs false
        [⟨h7 "referenceRange", .any⟩, ⟨h7 "observationRange", .any⟩, ⟨h7 "value", .any⟩] with
      | some refRange =>
        match findPath refRange false [⟨h7 "low", .any⟩],
              findPath refRange false [⟨h7 "high", .any⟩] with
        | some low, some high =>
          some (strOfOpt (low.attr "value") ++ "-" ++ strOfOpt (high.attr "value") ++ " " ++
            pyOrS testUnit "")
        | _, _ => none
      | none => none
    some { test := testName, value := testValue, unit := testUnit, reference_range := reference }
  | _, _ => none

/-- One `hl7:organizer` of the results section. -/
def parseLabOrganizer (organizer : XElem) : Option LabPanelR :=
  let panelName :=
    match findPath organizer false [⟨h7 "code", .any⟩] with
    | some ce => ce.attr "displayName"
    | none => some "Lab Panel"
  let testDate :=
    match findPath organizer false [⟨h7 "effectiveTime", .any⟩] with
    | some et => formatHl7Date (et.attr "value")
    | none => none
  let results := (findAllPath organizer true [⟨h7 "observation", .any⟩]).filterMap
    parseLabObservation
  if results.isEmpty then none
  else some { panel := panelName, date := testDate, results := results }

/-- `CCDParser._parse_lab_results`. -/
def parseLabResults (root : XElem) : List LabPanelR :=
  match findSection root resultsTid with
  | none => []
  | some sec =>
    if !sec.truthy then []
    else (findAllPath sec true [⟨h7 "organizer", .any⟩]).filterMap parseLabOrganizer

/-- One `hl7:entry` of the immunizations section. -/
def parseImmunizationEntry (entry : XElem) : Option ImmunizationR :=
  match findPath entry true [⟨h7 "substanceAdministration", .any⟩] with
  | none => none
  | some substance =>
    match findPath substance true [⟨h7 "manufacturedMaterial", .any⟩] with
    | none => none
    | some material =>
      let codeElem := findPath material false [⟨h7 "code", .any⟩]
      let vaccine :=
        match codeElem with
        | some ce => ce.attrD "displayName" "Unknown Vaccine"
        | none => "Unknown Vaccine"
      let cvx := codeElem.bind (·.attr "code")
      let date :=
        match findPath substance false [⟨h7 "effectiveTime", .any⟩] with
        | some et => formatHl7Date (et.attr "value")
        | none => none
      some { vaccine := vaccine, cvx_code := cvx, date := date }

/-- `CCDParser._parse_immunizations`. -/
def parseImmunizations (root : XElem) : List ImmunizationR :=
  match findSection root immunizationsTid with
  | none => []
  | some sec =>
    if !sec.truthy then []
    else (findAllPath sec true [⟨h7 "entry", .any⟩]).filterMap parseImmunizationEntry

/-- Dictionary insertion (later assignment to the same key overwrites in
place, as Python dicts do). -/
def dictInsert (m : List (String × Option String)) (k : String) (v : Option String) :
    List (String × Option String) :=
  if m.any (fun p => p.1 = k) then
    m.map (fun p => if p.1 = k then (p.1, v) else p)
  else m ++ [(k, v)]

/-- One `hl7:organizer` of the vital-signs section. -/
def parseVitalOrganizer (organizer : XElem) : Option VitalSetR :=
  let vitalDate :=
    match findPath organizer false [⟨h7 "effectiveTime", .any⟩] with
    | some et => formatHl7Date (et.attr "value")
    | none => none
  let measurements := (findAllPath organizer true [⟨h7 "observation", .any⟩]).foldl
    (fun acc obs =>
      match findPath obs false [⟨h7 "code", .any⟩], findPath obs false [⟨h7 "value", .any⟩] with
      | some code, some value =>
        let vitalType := code.attrD "displayName" "Unknown"
        let vitalValue := value.attr "value"
        let vitalUnit := value.attr "unit"
        let rendered :=
          if pyTruthyS vitalUnit then
            some (strOfOpt vitalValue ++ " " ++ strOfOpt vitalUnit)
          else vitalValue
        dictInsert acc vitalType rendered
      | _, _ => acc) []
  if measurements.isEmpty then none
  else some { date := vitalDate, measurements := measurements }

/-- `CCDParser._parse_vital_signs`. -/
def parseVitalSigns (root : XElem) : List VitalSetR :=
  match findSection root vitalSignsTid with
  | none => []
  | some sec =>
    if !sec.truthy then []
    else (findAllPath sec true [⟨h7 "organizer", .any⟩]).filterMap parseVitalOrganizer

/-- `CCDParser._parse_metadata`. -/
def parseMetadata (root : XElem) : MetadataR :=
  let docId := (findPath root false [⟨h7 "id", .any⟩]).bind (·.attr "root")
  let title := (findPath root false [⟨h7 "title", .any⟩]).bind (·.text)
  let docDate :=
    match findPath root false [⟨h7 "effectiveTime", .any⟩] with
    | some te => formatHl7Date (te.attr "value")
    | none => none
  let orgName :=
    match findPath root true [⟨h7 "author", .any⟩, ⟨h7 "assignedAuthor", .any⟩] with
    | some author =>
      (findPath author true
        [⟨h7 "representedOrganization", .any⟩, ⟨h7 "name", .any⟩]).bind (·.text)
    | none => none
  { document_id := docId, title := title, date := docDate, source_organization := orgName }

/-- `CCDParser.parse_file`, given the already well-formed XML tree (a byte
string that does not parse as XML raises `MalformedDocument` before this
point and is outside the tree model). -/
def parseFile (root : XElem) : ParseResult :=
  { demographics := parseDemographics root
    medications := parseMedications root
    allergies := parseAllergies root
    problems := parseProblems root
    procedures := parseProcedures root
    lab_results := parseLabResults root
    immunizations := parseImmunizations root
    vital_signs := parseVitalSigns root
    metadata := parseMetadata root }

/-! ## Narrative parser (`ingestion.py`): lab rows

`MedicalDocumentParser._parse_lab_row`: split a markdown table line on
`|`, keep the stripped non-empty cells, and walk them classifying each as
test name, value+unit, reference range, or flag marker. -/

inductive LabFlag where
  | normal
  | high
  | low
  | critical_high
  | critical_low
deriving Repr, DecidableEq

structure LabResultN where
  test_name : String
  value : String
  unit : Option String
  reference_range : Option String
  flag : LabFlag
  category : Option String
  interpretation : Option String
deriving Repr, DecidableEq

def isAsciiAlpha (c : Char) : Bool :=
  ('A' ≤ c && c ≤ 'Z') || ('a' ≤ c && c ≤ 'z')

/-- `re.match(r'^[A-Za-z]', s)`. -/
def matchAlphaHead (cs : List Char) : Bool :=
  match cs with
  | c :: _ => isAsciiAlpha c
  | [] => false

/-- `re.match(r'^[<>]?\d', s)`. -/
def matchCmpDigit (cs : List Char) : Bool :=
  match cs with
  | [] => false
  | c :: rest =>
    if c = '<' || c = '>' then
      match rest with
      | d :: _ => d.isDigit
      | [] => false
    else c.isDigit

/-- Characters of the unit class `[a-zA-Z/%°₂]`. -/
def isUnitChar (c : Char) : Bool :=
  isAsciiAlpha c || c = '/' || c = '%' || c = '°' || c = '₂'

/-- `re.match(r'^([<>]?\d+\.?\d*)\s*([a-zA-Z/%°₂]+)?', s)`: the value group
and the optional unit group. -/
def matchValueUnit (cs : List Char) : Option (List Char × Option (List Char)) :=
  let core : List Char → List Char → Option (List Char × Option (List Char)) :=
    fun cmp rest =>
      let ds := rest.takeWhile (·.isDigit)
      if ds.isEmpty then none
      else
        let r1 := rest.drop ds.length
        let (dot, r2) :=
          match r1 with
          | '.' :: r => ([('.' : Char)], r)
          | _ => ([], r1)
        let ds2 := r2.takeWhile (·.isDigit)
        let r3 := r2.drop ds2.length
        let r4 := r3.dropWhile isPySpace
        let unit := r4.takeWhile isUnitChar
        some (cmp ++ ds ++ dot ++ ds2, if unit.isEmpty then none else some unit)
  match cs with
  | [] => none
  | c :: rest =>
    if c = '<' || c = '>' then core [c] rest
    else core [] cs

/-- Does the reference-range pattern `\d+\s*[-–]\s*\d+|[<>]\s*\d+` match
starting exactly at the head of `cs`? -/
def refMatchHere (cs : List Char) : Bool :=
  (let ds := cs.takeWhile (·.isDigit)
   if ds.isEmpty then false
   else
     match (cs.drop ds.length).dropWhile isPySpace with
     | c :: r =>
       (c = '-' || c = '–') &&
         (match r.dropWhile isPySpace with
          | d :: _ => d.isDigit
          | [] => false)
     | [] => false) ||
  (match cs with
   | c :: r =>
     (c = '<' || c = '>') &&
       (match r.dropWhile isPySpace with
        | d :: _ => d.isDigit
        | [] => false)
   | [] => false)

/-- `re.search` of the reference-range pattern anywhere in `cs`. -/
def searchRef : List Char → Bool
  | [] => false
  | c :: r => refMatchHere (c :: r) || searchRef r

structure RowState where
  test_name : Option (List Char) := none
  value : Option (List Char) := none
  unit : Option (List Char) := none
  reference : Option (List Char) := none
  flag : LabFlag := .normal
  interpretation : Option (List Char) := none

/-- One loop iteration of `_parse_lab_row` over one cell. -/
def labRowStep (st : RowState) (part : List Char) : RowState :=
  let clean := pyStrip (part.filter (· ≠ '*'))
  if st.test_name.isNone && matchAlphaHead clean && !matchCmpDigit clean then
    { st with test_name := some clean }
  else if (matchValueUnit clean).isSome && st.value.isNone then
    match matchValueUnit clean with
    | some (v, u) => { st with value := some v, unit := u }
    | none => st
  else if searchRef clean && st.reference.isNone then
    { st with reference := some clean }
  else if containsSub "✅".data part || containsSub "Normal".data part then
    { st with flag := .normal, interpretation := some clean }
  else if containsSub "⚠️".data part || containsSub "High".data part ||
      containsSub "Elevated".data part then
    { st with flag := .high, interpretation := some clean }
  else if containsSub "Low".data part then
    { st with flag := .low, interpretation := some clean }
  else st

/-- `MedicalDocumentParser._parse_lab_row`. -/
def parseLabRow (line : String) (category : Option String) : Option LabResultN :=
  let stripped := pyStrip line.data
  let parts := ((splitChar '|' stripped).map pyStrip).filter (fun p => !p.isEmpty)
  if parts.length < 3 then none
  else
    let st := parts.foldl labRowStep {}
    match st.test_name, st.value with
    | some tn, some v =>
      if !tn.isEmpty && !v.isEmpty then
        some { test_name := String.mk tn, value := String.mk v
               unit := st.unit.map String.mk
               reference_range := st.reference.map String.mk
               flag := st.flag, category := category
               interpretation := st.interpretation.map String.mk }
      else none
    | _, _ => none

/-! ## Narrative parser: appointment extraction

`MedicalDocumentParser._extract_appointments`: a month/year header sets
the scan state; a day/time line under a held month emits an appointment
unless the calendar date is invalid (`date()` raises `ValueError`, the
entry is skipped); a 5-line lookahead collects facility/clinic/location. -/

structure AppointmentN where
  year : Nat
  month : Nat
  day : Nat
  time : String
  appointment_type : String
  facility : Option String
  clinic : Option String
  location : Option String
deriving Repr, DecidableEq

/-- First `some` result of `f` over a list (the ordered-alternative
semantics of a regex alternation). -/
def firstSome {α β : Type} (f : α → Option β) : List α → Option β
  | [] => none
  | a :: rest =>
    match f a with
    | some b => some b
    | none => firstSome f rest

def monthNames : List (String × Nat) :=
  [("January", 1), ("February", 2), ("March", 3), ("April", 4), ("May", 5), ("June", 6),
   ("July", 7), ("August", 8), ("September", 9), ("October", 10), ("November", 11),
   ("December", 12)]

/-- `re.match(r'^(January|...|December)\s+(\d{4})$', line, re.IGNORECASE)`:
month number and 4-digit year. -/
def matchMonthHeader (cs : List Char) : Option (Nat × Nat) :=
  firstSome (fun (name, num) =>
    if startsWithCI name.data cs then
      let rest := cs.drop name.length
      let ws := rest.takeWhile isPySpace
      if ws.isEmpty then none
      else
        let year := rest.drop ws.length
        if year.length = 4 && year.all (·.isDigit) then
          some (num, year.foldl (fun n c => n * 10 + (c.toNat - 48)) 0)
        else none
    else none) monthNames

/-- `re.match(r'^(January|...)', line, re.IGNORECASE)` (prefix only, used
by the lookahead break condition). -/
def startsWithMonthName (cs : List Char) : Bool :=
  monthNames.any (fun (name, _) => startsWithCI name.data cs)

def weekdayNames : List String :=
  ["Mon", "Tue", "Wed", "Thu", "Fri", "Sat", "Sun"]

/-- `\s*(.+?)$` with the preceding optional `(?:MT|ET|CT|PT)?\s*`: the
captured appointment-type text (backtracking included: a whitespace-only
remainder yields its last character, an empty remainder fails). -/
def apptTypeTail (rest : List Char) : Option (List Char) :=
  let grab : List Char → Option (List Char) := fun l =>
    let p := l.dropWhile isPySpace
    if !p.isEmpty then some p
    else
      match l.getLast? with
      | some c => some [c]
      | none => none
  let r1 := rest.dropWhile isPySpace
  let tzBranch :=
    firstSome (fun tz =>
      if startsWithCI tz.data r1 then grab (r1.drop 2) else none) ["MT", "ET", "CT", "PT"]
  match tzBranch with
  | some t => some t
  | none => grab rest

/-- The `(\d{1,2}:\d{2}\s*[ap]\.?m\.?)` time group followed by the
`\s*(?:MT|ET|CT|PT)?\s*(.+?)$` tail: the captured time characters and the
appointment-type characters (before the caller's `.strip()`).  The trailing
`\.?` is greedy but gives its dot back when the type group would otherwise
be empty. -/
def timeAndTail (cs : List Char) : Option (List Char × List Char) :=
  let hs := cs.takeWhile (·.isDigit)
  if hs.isEmpty || 2 < hs.length then none
  else
    match cs.drop hs.length with
    | ':' :: r1 =>
      if (r1.take 2).length = 2 && (r1.take 2).all (·.isDigit) then
        let m2 := r1.take 2
        let r2 := r1.drop 2
        let ws := r2.takeWhile isPySpace
        let r3 := r2.drop ws.length
        let finish : List Char → List Char → Option (List Char × List Char) :=
          fun timeChars rest =>
            let withDot :=
              match rest with
              | '.' :: r7 => (apptTypeTail r7).map (fun t => (timeChars ++ ['.'], t))
              | _ => none
            match withDot with
            | some res => some res
            | none => (apptTypeTail rest).map (fun t => (timeChars, t))
        match r3 with
        | c :: '.' :: m :: r6 =>
          if (pyLowerChar c = 'a' || pyLowerChar c = 'p') && pyLowerChar m = 'm' then
            finish (hs ++ ':' :: m2 ++ ws ++ [c, '.', m]) r6
          else none
        | c :: m :: r6 =>
          if (pyLowerChar c = 'a' || pyLowerChar c = 'p') && pyLowerChar m = 'm' then
            finish (hs ++ ':' :: m2 ++ ws ++ [c, m]) r6
          else none
        | _ => none
      else none
    | _ => none

/-- `re.match(r'^(\d{1,2})\s*(?:Mon|Tue|Wed|Thu|Fri|Sat|Sun)?\s*`
`(\d{1,2}:\d{2}\s*[ap]\.?m\.?)\s*(?:MT|ET|CT|PT)?\s*(.+?)$', line, re.I)`:
day number, captured time group, raw appointment-type group. -/
def matchAppt (cs : List Char) : Option (Nat × List Char × List Char) :=
  let afterDay : Nat → List Char → Option (Nat × List Char × List Char) :=
    fun day rest =>
      let r1 := rest.dropWhile isPySpace
      let viaWeekday :=
        match firstSome (fun w =>
          if startsWithCI w.data r1 then some (r1.drop 3) else none) weekdayNames with
        | some r2 => (timeAndTail (r2.dropWhile isPySpace)).map (fun (t, ty) => (day, t, ty))
        | none => none
      match viaWeekday with
      | some res => some res
      | none => (timeAndTail r1).map (fun (t, ty) => (day, t, ty))
  match cs with
  | d1 :: rest1 =>
    if !d1.isDigit then none
    else
      let try2 :=
        match rest1 with
        | d2 :: rest2 =>
          if d2.isDigit then
            afterDay ((d1.toNat - 48) * 10 + (d2.toNat - 48)) rest2
          else none
        | [] => none
      match try2 with
      | some res => some res
      | none => afterDay (d1.toNat - 48) rest1
  | [] => none

/-- Gregorian leap year, as Python's `datetime.date` uses. -/
def isLeap (y : Nat) : Bool :=
  y % 4 = 0 && (y % 100 ≠ 0 || y % 400 = 0)

def daysInMonth (y m : Nat) : Nat :=
  if m = 2 then (if isLeap y then 29 else 28)
  else if m = 4 || m = 6 || m = 9 || m = 11 then 30
  else 31

/-- Validity domain of Python's `datetime.date(y, m, d)` (`ValueError`
outside it). -/
def validDate (y m d : Nat) : Bool :=
  1 ≤ y && y ≤ 9999 && 1 ≤ m && m ≤ 12 && 1 ≤ d && d ≤ daysInMonth y m

/-- `re.match(r'^\d{1,2}\s', s)` — the lookahead's day-number break test. -/
def matchDayNumber (cs : List Char) : Bool :=
  let ds := cs.takeWhile (·.isDigit)
  (ds.length = 1 || ds.length = 2) &&
    (match cs.drop ds.length with
     | c :: _ => isPySpace c
     | [] => false)

/-- `re.match(r'^At\s+', s)`. -/
def matchAtPrefix (cs : List Char) : Bool :=
  match cs with
  | 'A' :: 't' :: c :: _ => isPySpace c
  | _ => false

/-- `re.sub(r'^At\s+', '', s)`. -/
def stripAtPrefix (cs : List Char) : List Char :=
  match cs with
  | 'A' :: 't' :: rest => rest.dropWhile isPySpace
  | _ => cs

/-- The 5-line lookahead collecting `At ...` / `Clinic: ...` /
`Location: ...` continuation fields, stopping early at a day-number or
month-header line. -/
def apptLookahead : List (List Char) →
    Option (List Char) × Option (List Char) × Option (List Char) →
    Option (List Char) × Option (List Char) × Option (List Char)
  | [], acc => acc
  | l :: rest, (f, c, lo) =>
    let ls := pyStrip l
    if matchAtPrefix ls then apptLookahead rest (some (stripAtPrefix ls), c, lo)
    else if startsWith "Clinic:".data ls then
      apptLookahead rest (f, some ((ls.drop 7).dropWhile isPySpace), lo)
    else if startsWith "Location:".data ls then
      apptLookahead rest (f, c, some ((ls.drop 9).dropWhile isPySpace))
    else if matchDayNumber ls || startsWithMonthName ls then (f, c, lo)
    else apptLookahead rest (f, c, lo)

/-- The line-scanning loop of `_extract_appointments`, carrying the
`(current_month, current_year)` state. -/
def apptScan : List (List Char) → Option Nat → Option Nat → List AppointmentN
  | [], _, _ => []
  | l :: rest, curMonth, curYear =>
    let line := pyStrip l
    match matchMonthHeader line with
    | some (m, y) => apptScan rest (some m) (some y)
    | none =>
      match matchAppt line, curMonth, curYear with
      | some (day, timeChars, typeChars), some m, some y =>
        if validDate y m day then
          let (f, c, lo) := apptLookahead (rest.take 5) (none, none, none)
          { year := y, month := m, day := day
            time := String.mk timeChars
            appointment_type := String.mk (pyStrip typeChars)
            facility := f.map String.mk
            clinic := c.map String.mk
            location := lo.map String.mk } :: apptScan rest curMonth curYear
        else apptScan rest curMonth curYear
      | _, _, _ => apptScan rest curMonth curYear

/-- `MedicalDocumentParser._extract_appointments`. -/
def extractAppointments (content : String) : List AppointmentN :=
  apptScan (splitChar '\n' content.data) none none

/-! ## Alias generation (`generate_name_aliases` in `ingestion.py`) -/

structure AliasR where
  name : String
  source : String
  is_primary : Bool := false
deriving Repr, DecidableEq

/-- Last element of a non-empty-by-use list, with a default. -/
def lastD (d : String) : List String → String
  | [] => d
  | [x] => x
  | _ :: x :: xs => lastD d (x :: xs)

/-- First character of a name part, as a one-character string. -/
def initialOf (s : String) : String :=
  match s.data with
  | c :: _ => String.mk [c]
  | [] => ""

/-- Case-insensitive equality via `str.lower()`. -/
def lowerEq (a b : String) : Bool :=
  pyLower a.data = pyLower b.data

/-- The alias-building body of `generate_name_aliases`, over the
whitespace-split name parts (reached only when there are at least two).
The source guard `if preferred_name and preferred_name.lower() !=
first_name.lower()` is Python truthiness: a `None` OR EMPTY preferred
name produces no preferred/formal variants, hence `!p.isEmpty &&`. -/
def generateNameAliasesCore (parts : List String) (preferred_name : Option String) :
    List AliasR :=
  let first := parts.headD ""
  let last := lastD "" parts
  let middles := if 2 < parts.length then (parts.drop 1).dropLast else []
  let base : List AliasR :=
    [{ name := first ++ " " ++ last, source := "form_truncation" },
     { name := initialOf first ++ ". " ++ last, source := "form_truncation" }]
  let preferredPart : List AliasR :=
    match preferred_name with
    | some p =>
      if !p.isEmpty && !lowerEq p first then
        [{ name := p ++ " " ++ last, source := "preferred", is_primary := true },
         { name := initialOf first ++ ". " ++ p ++ " " ++ last, source := "formal" }]
      else []
    | none => []
  let middlePart : List AliasR :=
    middles.flatMap (fun middle =>
      let keep :=
        match preferred_name with
        | some p => middle != p
        | none => true
      if keep then
        [{ name := first ++ " " ++ initialOf middle ++ ". " ++ last
           source := "form_truncation" },
         { name := middle ++ " " ++ last, source := "middle_name_used" }]
      else [])
  base ++ preferredPart ++ middlePart

/-- `generate_name_aliases(full_name, preferred_name)`. -/
def generateNameAliases (full_name : String) (preferred_name : Option String) :
    List AliasR :=
  if full_name.isEmpty then []
  else
    let parts := (pySplitWs full_name.data).map String.mk
    if parts.length < 2 then []
    else generateNameAliasesCore parts preferred_name

/-! ## Checkpoint parsing (`scripts/import_checkpoint.py`, `parse_checkpoint`)

The member id is taken from a `member_id:` token anywhere in the text and
then overridden by a bolded `**Member ID:**` line when one matches; the
body is walked line by line under a `## `-heading section state, each
section with its own table-row grammar. -/

/-- The backquote character (written by code point to keep it out of
source literals). -/
def backquote : Char := Char.ofNat 96

/-- The character class `[a-f0-9-]`. -/
def isHexDash (c : Char) : Bool :=
  c.isDigit || ('a' ≤ c && c ≤ 'f') || c = '-'

/-- `re.search(r"member_id:\s*([a-f0-9-]+)", content)`. -/
def searchMemberToken : List Char → Option (List Char)
  | [] => none
  | c :: r =>
    let here :=
      if startsWith "member_id:".data (c :: r) then
        let t := ((c :: r).drop 10).dropWhile isPySpace
        let g := t.takeWhile isHexDash
        if g.isEmpty then none else some g
      else none
    match here with
    | some g => some g
    | none => searchMemberToken r

/-- `re.search(r"\*\*Member ID:\*\*\s*`([a-f0-9-]+)`", content)`. -/
def searchBoldMemberId : List Char → Option (List Char)
  | [] => none
  | c :: r =>
    let here :=
      if startsWith "**Member ID:**".data (c :: r) then
        match ((c :: r).drop 14).dropWhile isPySpace with
        | q :: t =>
          if q = backquote then
            let g := t.takeWhile isHexDash
            if g.isEmpty then none
            else
              match t.drop g.length with
              | q2 :: _ => if q2 = backquote then some g else none
              | [] => none
          else none
        | [] => none
      else none
    match here with
    | some g => some g
    | none => searchBoldMemberId r

/-- `re.search(r"`([a-f0-9-]+)`", s)` (relationship-cell member ids). -/
def searchBacktickId : List Char → Option (List Char)
  | [] => none
  | c :: r =>
    let here :=
      if c = backquote then
        let g := r.takeWhile isHexDash
        if g.isEmpty then none
        else
          match r.drop g.length with
          | q2 :: _ => if q2 = backquote then some g else none
          | [] => none
      else none
    match here with
    | some g => some g
    | none => searchBacktickId r

/-- The `(.+?)\s*\|` fragment: shortest non-empty group followed by
whitespace and a pipe. -/
def lazyUpToPipe : List Char → Option (List Char)
  | [] => none
  | c :: rest =>
    if (rest.dropWhile isPySpace).head? = some '|' then some [c]
    else (lazyUpToPipe rest).map (fun g => c :: g)

/-- The `\s*(.+?)\s*\|` fragment, with the leading `\s*` greedy but
backtracking (the group may absorb trailing whitespace when nothing else
follows). -/
def group2Find (l : List Char) : Option (List Char) :=
  let rec down : Nat → Option (List Char)
    | 0 => lazyUpToPipe l
    | k + 1 =>
      match lazyUpToPipe (l.drop (k + 1)) with
      | some g => some g
      | none => down k
  down (l.takeWhile isPySpace).length

/-- The `(.+?)\*\*\s*\|` fragment plus the value part: group 1 is extended
character by character (regex backtracking) until a `**`-then-pipe
continuation admits a group 2. -/
def group1Go (acc : List Char) : List Char → Option (List Char × List Char)
  | [] => none
  | c :: rest =>
    let acc' := c :: acc
    let here :=
      match rest with
      | '*' :: '*' :: r2 =>
        match r2.dropWhile isPySpace with
        | '|' :: r3 => (group2Find r3).map (fun g2 => (acc'.reverse, g2))
        | _ => none
      | _ => none
    match here with
    | some res => some res
    | none => group1Go acc' rest

/-- `re.match(r"\|\s*\*\*(.+?)\*\*\s*\|\s*(.+?)\s*\|", line)`. -/
def matchPersonalRow (cs : List Char) : Option (List Char × List Char) :=
  match cs with
  | '|' :: r1 =>
    match r1.dropWhile isPySpace with
    | '*' :: '*' :: r2 => group1Go [] r2
    | _ => none
  | _ => none

/-- Rest of the input after the first occurrence of `sep`. -/
def afterSub (sep : List Char) : List Char → Option (List Char)
  | [] => none
  | c :: r =>
    if startsWith sep (c :: r) then some ((c :: r).drop sep.length)
    else afterSub sep r

/-- Input up to (excluding) the first occurrence of `sep`. -/
def upToSub (sep : List Char) : List Char → List Char
  | [] => []
  | c :: r => if startsWith sep (c :: r) then [] else c :: upToSub sep r

/-- `line.split(":**")[1].strip()` (guarded in the source by a prefix
containing `:**`, so index 1 exists). -/
def splitColonStarsSecond (ls : List Char) : List Char :=
  pyStrip (((afterSub ":**".data ls).map (upToSub ":**".data)).getD [])

/-- `[c.strip() for c in line.split("|")[1:-1]]`. -/
def cellsOf (ls : List Char) : List String :=
  (((splitChar '|' ls).drop 1).dropLast).map (fun c => String.mk (pyStrip c))

structure RiskRow where
  name : String
  reason : Option String
  screening : Option String
deriving Repr, DecidableEq

structure CondRow where
  name : String
  icd10 : Option String
  status : String
  severity : String
  diagnosed_date : Option String
  notes : Option String
deriving Repr, DecidableEq

structure MedRow where
  name : String
  dosage : Option String
  frequency : Option String
  start_date : Option String
  prescriber : Option String
deriving Repr, DecidableEq

structure RelRow where
  rel_type : String
  name : String
  member_id : String
deriving Repr, DecidableEq

structure ParsedData where
  member_id : Option String := none
  personal_info : List (String × String) := []
  aliases : List AliasR := []
  health_risks : List RiskRow := []
  conditions : List CondRow := []
  medications : List MedRow := []
  lab_events : List String := []
  relationships : List RelRow := []
deriving Repr, DecidableEq

/-- Python-dict insertion for `personal_info` (re-assignment overwrites in
place). -/
def dictInsertS (m : List (String × String)) (k v : String) : List (String × String) :=
  if m.any (fun p => p.1 = k) then
    m.map (fun p => if p.1 = k then (p.1, v) else p)
  else m ++ [(k, v)]

def updateLast (f : α → α) : List α → List α
  | [] => []
  | [x] => [f x]
  | x :: y :: xs => x :: updateLast f (y :: xs)

def getCell (cells : List String) (i : Nat) : String :=
  cells.getD i ""

/-- One line of `parse_checkpoint`'s scanning loop. -/
def checkpointLineStep (st : Option (List Char) × ParsedData) (line : List Char) :
    Option (List Char) × ParsedData :=
  let (cur, d) := st
  let ls := pyStrip line
  if startsWith "## ".data ls then (some (pyLower (ls.drop 3)), d)
  else
    let d :=
      if cur = some "personal information".data && startsWith "| **".data ls then
        match matchPersonalRow ls with
        | some (g1, g2) =>
          let key := String.mk (pyReplaceChar (pyLower g1) ' ' '_')
          let value := String.mk (pyStrip g2)
          if !value.isEmpty && value ≠ "-" then
            { d with personal_info := dictInsertS d.personal_info key value }
          else d
        | none => d
      else d
    let d :=
      if cur = some "name aliases".data && startsWith "|".data ls &&
          !containsSub "---".data ls &&
          !containsSub "Alias".data ls && !containsSub "alias".data (pyLower ls) then
        let cells := cellsOf ls
        if 2 ≤ cells.length then
          { d with aliases := d.aliases ++
              [{ name := getCell cells 0
                 source :=
                   if 1 < cells.length && getCell cells 1 ≠ "-" then getCell cells 1
                   else "unknown"
                 is_primary := 2 < cells.length &&
                   String.mk (pyLower (getCell cells 2).data) = "yes" }] }
        else d
      else d
    let d :=
      if (match cur with
          | some c => !c.isEmpty && containsSub "health risks".data c
          | none => false) then
        if startsWith "### ".data ls then
          { d with health_risks := d.health_risks ++
              [{ name := String.mk (ls.drop 4), reason := none, screening := none }] }
        else if startsWith "- **Reason:**".data ls then
          if d.health_risks.isEmpty then d
          else
            { d with health_risks := (updateLast
                (fun r => { r with reason := some (String.mk (splitColonStarsSecond ls)) })
                d.health_risks) }
        else if startsWith "- **Screening:**".data ls then
          if d.health_risks.isEmpty then d
          else
            { d with health_risks := (updateLast
                (fun r => { r with screening := some (String.mk (splitColonStarsSecond ls)) })
                d.health_risks) }
        else d
      else d
    let d :=
      if cur = some "current conditions".data && startsWith "|".data ls &&
          !containsSub "---".data ls && !containsSub "Condition".data ls then
        let cells := cellsOf ls
        if 4 ≤ cells.length then
          { d with conditions := d.conditions ++
              [{ name := getCell cells 0
                 icd10 := if getCell cells 1 ≠ "-" then some (getCell cells 1) else none
                 status := if getCell cells 2 ≠ "-" then getCell cells 2 else "active"
                 severity :=
                   if 3 < cells.length && getCell cells 3 ≠ "-" then getCell cells 3
                   else "mild"
                 diagnosed_date :=
                   if 4 < cells.length && getCell cells 4 ≠ "-" then some (getCell cells 4)
                   else none
                 notes :=
                   if 5 < cells.length && getCell cells 5 ≠ "-" then some (getCell cells 5)
                   else none }] }
        else d
      else d
    let d :=
      if cur = some "current medications".data && startsWith "|".data ls &&
          !containsSub "---".data ls && !containsSub "Medication".data ls then
        let cells := cellsOf ls
        if 3 ≤ cells.length then
          { d with medications := d.medications ++
              [{ name := getCell cells 0
                 dosage := if getCell cells 1 ≠ "-" then some (getCell cells 1) else none
                 frequency := if getCell cells 2 ≠ "-" then some (getCell cells 2) else none
                 start_date :=
                   if 3 < cells.length && getCell cells 3 ≠ "-" then some (getCell cells 3)
                   else none
                 prescriber :=
                   if 4 < cells.length && getCell cells 4 ≠ "-" then some (getCell cells 4)
                   else none }] }
        else d
      else d
    let d :=
      if cur = some "family relationships".data && startsWith "|".data ls &&
          !containsSub "---".data ls && !containsSub "Relationship".data ls then
        let cells := cellsOf ls
        if 3 ≤ cells.length then
          { d with relationships := d.relationships ++
              [{ rel_type := String.mk (pyReplaceChar (pyUpper (getCell cells 0).data) ' ' '_')
                 name := getCell cells 1
                 member_id :=
                   match searchBacktickId (getCell cells 2).data with
                   | some g => String.mk g
                   | none => getCell cells 2 }] }
        else d
      else d
    (cur, d)

/-- `parse_checkpoint(content)`. -/
def parseCheckpoint (content : String) : ParsedData :=
  let cs := content.data
  let fromToken := searchMemberToken cs
  let fromBold := searchBoldMemberId cs
  let mid :=
    match fromBold with
    | some b => some (String.mk b)
    | none => fromToken.map String.mk
  let d := ((splitChar '\n' cs).foldl checkpointLineStep (none, {})).2
  { d with member_id := mid }

/-! ## Graph store model

The external Neo4j store, as driven by the mutation generators: nodes
addressed by a `(label, key-property, key-value)` natural key, edges by a
`(source, relation type, target, merge-pattern attributes)` key.  A Cypher
`MERGE ... SET` is modelled by `applyNodeMerge`/`applyEdgeMerge`: locate by
key, create when absent, apply `ON CREATE SET` attributes only on creation
and plain `SET` attributes in both cases.  `SET n.a = null` removes the
attribute, as in Cypher.  A `MERGE` whose pattern carries a null attribute
is modelled as a key containing null (Neo4j instead raises there; either
way the re-run adds nothing new, which is all the claims below use). -/

inductive PVal where
  | s (v : String)
  | b (v : Bool)
  | null
deriving Repr, DecidableEq

def optPV (o : Option String) : PVal :=
  match o with
  | some v => .s v
  | none => .null

structure NodeKey where
  label : String
  prop : String
  val : String
deriving Repr, DecidableEq

structure EdgeKey where
  src : NodeKey
  rel : String
  dst : NodeKey
  pat : List (String × PVal) := []
deriving Repr, DecidableEq

abbrev AttrMap := List (String × PVal)

/-- `SET n.k = v` on an attribute map: null removes, otherwise replace in
place or append. -/
def setAttr (m : AttrMap) (k : String) (v : PVal) : AttrMap :=
  match v with
  | .null => m.filter (fun p => p.1 != k)
  | _ =>
    if m.any (fun p => p.1 = k) then
      m.map (fun p => if p.1 = k then (p.1, v) else p)
    else m ++ [(k, v)]

def lookupAttr (m : AttrMap) (k : String) : Option PVal :=
  (m.find? (fun p => p.1 = k)).map (·.2)

/-- A `SET` right-hand side: a plain parameter, or
`COALESCE($v, n.self, $fb)` reading the target attribute itself (the only
`COALESCE` shape the sources use; the two-argument form has `fb = null`). -/
inductive SetExpr where
  | lit (v : PVal)
  | coalesceSelf (v : PVal) (fb : PVal)
deriving Repr, DecidableEq

def evalSet (m : AttrMap) (attrName : String) : SetExpr → PVal
  | .lit v => v
  | .coalesceSelf v fb =>
    match v with
    | .null =>
      (match lookupAttr m attrName with
       | some w => w
       | none => fb)
    | _ => v

def applySets (m : AttrMap) (sets : List (String × SetExpr)) : AttrMap :=
  sets.foldl (fun acc p => setAttr acc p.1 (evalSet acc p.1 p.2)) m

def applyPSets (m : AttrMap) (sets : List (String × PVal)) : AttrMap :=
  sets.foldl (fun acc p => setAttr acc p.1 p.2) m

structure NodeMerge where
  key : NodeKey
  onCreate : List (String × PVal) := []
  always : List (String × SetExpr) := []
deriving Repr, DecidableEq

structure EdgeMerge where
  key : EdgeKey
  onCreate : List (String × PVal) := []
  always : List (String × PVal) := []
deriving Repr, DecidableEq

/-- One emitted query of the `MERGE`-based kind: an optional `MATCH`
precondition (the whole query is a no-op when its node is absent), then
node merges, then edge merges between already-bound nodes. -/
structure UpsertOp where
  matchReq : Option NodeKey := none
  nodes : List NodeMerge := []
  edges : List EdgeMerge := []
deriving Repr, DecidableEq

structure Graph where
  nodes : List (NodeKey × AttrMap) := []
  edges : List (EdgeKey × AttrMap) := []
deriving Repr, DecidableEq

def nodeFind (g : Graph) (k : NodeKey) : Option AttrMap :=
  (g.nodes.find? (fun p => p.1 = k)).map (·.2)

def applyNodeMerge (g : Graph) (nm : NodeMerge) : Graph :=
  if g.nodes.any (fun p => p.1 = nm.key) then
    { g with nodes := g.nodes.map (fun p =>
        if p.1 = nm.key then (p.1, applySets p.2 nm.always) else p) }
  else
    { g with nodes := g.nodes ++
        [(nm.key, applySets (applyPSets [(nm.key.prop, .s nm.key.val)] nm.onCreate) nm.always)] }

def applyEdgeMerge (g : Graph) (em : EdgeMerge) : Graph :=
  if g.edges.any (fun p => p.1 = em.key) then
    { g with edges := g.edges.map (fun p =>
        if p.1 = em.key then (p.1, applyPSets p.2 em.always) else p) }
  else
    { g with edges := g.edges ++
        [(em.key, applyPSets (applyPSets em.key.pat em.onCreate) em.always)] }

def applyUpsert (g : Graph) (u : UpsertOp) : Graph :=
  (u.nodes.foldl applyNodeMerge g) |> (fun g1 => u.edges.foldl applyEdgeMerge g1)

def applyOp (g : Graph) (u : UpsertOp) : Graph :=
  match u.matchReq with
  | none => applyUpsert g u
  | some k => if g.nodes.any (fun p => p.1 = k) then applyUpsert g u else g

def runOps (ops : List UpsertOp) (g : Graph) : Graph :=
  ops.foldl applyOp g

def nkeys (g : Graph) : List NodeKey := g.nodes.map Prod.fst

def ekeys (g : Graph) : List EdgeKey := g.edges.map Prod.fst

/-! ## Checkpoint import operations (`import_checkpoint`)

Each Cypher block of `import_checkpoint` as an `UpsertOp`, in execution
order: the Person upsert, then birth location, aliases, health risks,
conditions and medications, each `MATCH`ing the Person node first. -/

def personKey (mid : String) : NodeKey :=
  ⟨"Person", "id", mid⟩

def infoGet (d : ParsedData) (k : String) : Option String :=
  (d.personal_info.find? (fun p => p.1 = k)).map (·.2)

def checkpointPersonOp (mid : String) (d : ParsedData) : UpsertOp :=
  let nameParam := pyOrS (infoGet d "preferred_name")
    (String.mk (firstWordD ((infoGet d "full_legal_name").getD "Unknown").data))
  { matchReq := none
    nodes := [{ key := personKey mid
                always :=
                  [("name", .lit (.s nameParam)),
                   ("full_legal_name", .lit (optPV (infoGet d "full_legal_name"))),
                   ("preferred_name", .lit (optPV (infoGet d "preferred_name"))),
                   ("gender", .lit (optPV (infoGet d "gender"))),
                   ("blood_type", .lit (optPV (infoGet d "blood_type"))),
                   ("role", .lit (.s ((infoGet d "role").getD "member")))] ++
                  (match infoGet d "date_of_birth" with
                   | some dob => [("date_of_birth", .lit (.s dob))]
                   | none => []) }]
    edges := [] }

def checkpointLocOps (mid : String) (d : ParsedData) : List UpsertOp :=
  let city := infoGet d "birth_city"
  let country := infoGet d "birth_country"
  if pyTruthyS city && pyTruthyS country then
    let cityS := city.getD ""
    let countryS := country.getD ""
    let code := infoGet d "country_code"
    let locId := String.mk (pyReplaceChar (pyLower cityS.data) ' ' '-') ++ "-" ++
      String.mk (pyLower (code.getD (String.mk (countryS.data.take 2))).data)
    let locKey : NodeKey := ⟨"Location", "id", locId⟩
    [{ matchReq := some (personKey mid)
       nodes := [{ key := locKey
                   always := [("city", .lit (.s cityS)), ("country", .lit (.s countryS)),
                              ("country_code", .lit (optPV code))] }]
       edges := [{ key := ⟨personKey mid, "BORN_IN", locKey, []⟩ }] }]
  else []

def checkpointAliasOp (mid : String) (a : AliasR) : UpsertOp :=
  let aKey : NodeKey := ⟨"Alias", "name", a.name⟩
  { matchReq := some (personKey mid)
    nodes := [{ key := aKey
                always := [("source", .lit (.s a.source)),
                           ("is_primary", .lit (.b a.is_primary))] }]
    edges := [{ key := ⟨personKey mid, "HAS_ALIAS", aKey, []⟩ }] }

def checkpointRiskOp (mid : String) (r : RiskRow) : UpsertOp :=
  let hrKey : NodeKey := ⟨"HealthRisk", "name", r.name⟩
  { matchReq := some (personKey mid)
    nodes := [{ key := hrKey
                always := [("screening", .lit (optPV r.screening))] }]
    edges := [{ key := ⟨personKey mid, "AT_RISK_FOR", hrKey, [("reason", optPV r.reason)]⟩ }] }

def checkpointCondOp (mid : String) (c : CondRow) : UpsertOp :=
  let cKey : NodeKey := ⟨"Condition", "name", c.name⟩
  { matchReq := some (personKey mid)
    nodes := [{ key := cKey
                always := [("icd10_code", .lit (optPV c.icd10))] }]
    edges := [{ key := ⟨personKey mid, "HAS_CONDITION", cKey, []⟩
                always := [("status", .s c.status), ("severity", .s c.severity),
                           ("notes", optPV c.notes)] }] }

def checkpointMedOp (mid : String) (m : MedRow) : UpsertOp :=
  let mKey : NodeKey := ⟨"Medication", "name", m.name⟩
  { matchReq := some (personKey mid)
    nodes := [{ key := mKey
                always := [("dosage", .lit (optPV m.dosage)),
                           ("frequency", .lit (optPV m.frequency))] }]
    edges := [{ key := ⟨personKey mid, "TAKES", mKey, []⟩
                always := [("prescriber", optPV m.prescriber)] }] }

def checkpointOps (mid : String) (d : ParsedData) : List UpsertOp :=
  checkpointPersonOp mid d ::
    (checkpointLocOps mid d ++
     d.aliases.map (checkpointAliasOp mid) ++
     d.health_risks.map (checkpointRiskOp mid) ++
     d.conditions.map (checkpointCondOp mid) ++
     d.medications.map (checkpointMedOp mid))

/-- `import_checkpoint(driver, data)`: `ValueError` (before any write) when
no member id was recovered, otherwise the mutation sequence against the
store. -/
def importCheckpoint (d : ParsedData) (g : Graph) : Except String Graph :=
  match d.member_id with
  | none => .error "No member_id found in checkpoint"
  | some mid =>
    if mid.isEmpty then .error "No member_id found in checkpoint"
    else .ok (runOps (checkpointOps mid d) g)

/-! ## CCD per-section import operations (`routers/ccd.py`)

`_import_medications` locates the Medication node by name and the
`TAKES_MEDICATION` edge by endpoints, writing all non-key attributes under
`ON CREATE SET` only.  `med_id` (a fresh `med_<uuid4>`) is passed in
explicitly. -/

def ccdMedicationOp (memberId medId name : String) (med : MedR) : UpsertOp :=
  let mKey : NodeKey := ⟨"Medication", "name", name⟩
  { matchReq := some (personKey memberId)
    nodes := [{ key := mKey
                onCreate := [("id", .s medId), ("rxnorm_code", optPV med.rxnorm_code)] }]
    edges := [{ key := ⟨personKey memberId, "TAKES_MEDICATION", mKey, []⟩
                onCreate := [("dosage", optPV med.dosage), ("frequency", optPV med.frequency),
                             ("start_date", optPV med.start_date),
                             ("end_date", optPV med.end_date),
                             ("status", optPV med.status), ("source", .s "ccd_import")] }] }

/-! ## Narrative graph mutation generator (`generate_neo4j_queries`)

The full ordered query list: Person upsert (with `COALESCE` on name and
preferred name), optional birth location, derived and additional aliases,
provider, a `CREATE`d LabEvent with `CREATE`d LabResult children (not
upserts), then Condition and Appointment upserts.  `today` stands for
`date.today().isoformat()`, made an explicit argument. -/

structure ProviderN where
  name : String
  facility : Option String := none
deriving Repr, DecidableEq

structure ConditionN where
  name : String
  status : String := "active"
  severity : String := "mild"
  icd10_code : Option String := none
  notes : Option String := none
deriving Repr, DecidableEq

structure MedicalDocument where
  id : String
  document_type : String
  document_date : Option String := none
  patient_name : Option String := none
  provider : Option ProviderN := none
  raw_text : String := ""
  lab_results : List LabResultN := []
  conditions : List ConditionN := []
  followup_items : List String := []
  appointments : List AppointmentN := []
  summary : Option String := none
deriving Repr, DecidableEq

structure BirthInfo where
  date_of_birth : Option String := none
  birth_city : Option String := none
  birth_country : Option String := none
  birth_country_code : Option String := none
deriving Repr, DecidableEq

inductive QueryOp where
  | upsert (u : UpsertOp)
  | create (matchReq : Option NodeKey) (labels : List String)
deriving Repr, DecidableEq

def pad2 (n : Nat) : String :=
  if n < 10 then "0" ++ toString n else toString n

def pad4 (n : Nat) : String :=
  if n < 10 then "000" ++ toString n
  else if n < 100 then "00" ++ toString n
  else if n < 1000 then "0" ++ toString n
  else toString n

/-- `appt.date.isoformat()`. -/
def isoDate (a : AppointmentN) : String :=
  pad4 a.year ++ "-" ++ pad2 a.month ++ "-" ++ pad2 a.day

/-- `appt.time.replace(' ', '').replace('.', '').replace(':', '')`. -/
def cleanTime (t : String) : String :=
  String.mk (t.data.filter (fun c => c ≠ ' ' && c ≠ '.' && c ≠ ':'))

def narrativePersonOp (doc : MedicalDocument) (familyMemberId : String)
    (fullLegalName preferredName : Option String) (birthInfo : Option BirthInfo) :
    UpsertOp :=
  { matchReq := none
    nodes := [{ key := personKey familyMemberId
                always :=
                  [("name", .coalesceSelf (optPV fullLegalName)
                      (.s (pyOrS doc.patient_name "Unknown"))),
                   ("preferred_name", .coalesceSelf (optPV preferredName) .null)] ++
                  (match birthInfo with
                   | some bi =>
                     (match bi.date_of_birth with
                      | some dob => [("date_of_birth", SetExpr.lit (.s dob))]
                      | none => [])
                   | none => []) }]
    edges := [] }

def narrativeLocationOps (familyMemberId : String) (birthInfo : Option BirthInfo) :
    List QueryOp :=
  match birthInfo with
  | some bi =>
    if pyTruthyS bi.birth_city && pyTruthyS bi.birth_country then
      let cityS := bi.birth_city.getD ""
      let countryS := bi.birth_country.getD ""
      let locId := String.mk (pyReplaceChar (pyLower cityS.data) ' ' '-') ++ "-" ++
        pyOrS bi.birth_country_code (String.mk (pyLower (countryS.data.take 2)))
      let locKey : NodeKey := ⟨"Location", "id", locId⟩
      [.upsert
        { matchReq := some (personKey familyMemberId)
          nodes := [{ key := locKey
                      always := [("city", .lit (.s cityS)), ("country", .lit (.s countryS)),
                                 ("country_code", .lit (optPV bi.birth_country_code))] }]
          edges := [{ key := ⟨personKey familyMemberId, "BORN_IN", locKey, []⟩ }] }]
    else []
  | none => []

def narrativeAliasOp (familyMemberId : String) (a : AliasR) : QueryOp :=
  let aKey : NodeKey := ⟨"Alias", "name", a.name⟩
  .upsert
    { matchReq := some (personKey familyMemberId)
      nodes := [{ key := aKey
                  always := [("source", .lit (.s a.source)),
                             ("is_primary", .lit (.b a.is_primary))] }]
      edges := [{ key := ⟨personKey familyMemberId, "HAS_ALIAS", aKey, []⟩ }] }

def narrativeAliasOps (familyMemberId : String)
    (fullLegalName preferredName : Option String) : List QueryOp :=
  match fullLegalName with
  | some fln =>
    if fln.isEmpty then []
    else (generateNameAliases fln preferredName).map (narrativeAliasOp familyMemberId)
  | none => []

def narrativeNicknameOp (familyMemberId : String) (n : String) : QueryOp :=
  let aKey : NodeKey := ⟨"Alias", "name", n⟩
  .upsert
    { matchReq := some (personKey familyMemberId)
      nodes := [{ key := aKey, always := [("source", .lit (.s "nickname"))] }]
      edges := [{ key := ⟨personKey familyMemberId, "HAS_ALIAS", aKey, []⟩ }] }

def narrativeNicknameOps (familyMemberId : String)
    (additionalAliases : Option (List String)) : List QueryOp :=
  match additionalAliases with
  | some names =>
    if names.isEmpty then []
    else names.map (narrativeNicknameOp familyMemberId)
  | none => []

def narrativeProviderOps (doc : MedicalDocument) : List QueryOp :=
  match doc.provider with
  | some prov =>
    [.upsert
      { matchReq := none
        nodes := [{ key := ⟨"Provider", "name", prov.name⟩
                    always := [("facility", .lit (optPV prov.facility))] }]
        edges := [] }]
  | none => []

def narrativeLabOps (doc : MedicalDocument) (familyMemberId : String) : List QueryOp :=
  QueryOp.create (some (personKey familyMemberId)) ["LabEvent"] ::
    doc.lab_results.map (fun _ =>
      QueryOp.create (some ⟨"LabEvent", "id", "lab_" ++ doc.id⟩) ["LabResult"])

def narrativeConditionOp (familyMemberId docDate : String) (c : ConditionN) : QueryOp :=
  let cKey : NodeKey := ⟨"Condition", "name", c.name⟩
  .upsert
    { matchReq := some (personKey familyMemberId)
      nodes := [{ key := cKey, always := [("icd10_code", .lit (optPV c.icd10_code))] }]
      edges := [{ key := ⟨personKey familyMemberId, "HAS_CONDITION", cKey, []⟩
                  always := [("status", .s c.status), ("severity", .s c.severity),
                             ("diagnosed_date", .s docDate), ("notes", optPV c.notes)] }] }

def narrativeAppointmentOp (familyMemberId : String) (a : AppointmentN) : QueryOp :=
  let apptId := "appt_" ++ isoDate a ++ "_" ++
    (if a.time.isEmpty then "unknown" else cleanTime a.time)
  let aKey : NodeKey := ⟨"Appointment", "id", apptId⟩
  .upsert
    { matchReq := some (personKey familyMemberId)
      nodes := [{ key := aKey
                  always := [("date", .lit (.s (isoDate a))), ("time", .lit (.s a.time)),
                             ("appointment_type", .lit (.s a.appointment_type)),
                             ("facility", .lit (optPV a.facility)),
                             ("clinic", .lit (optPV a.clinic)),
                             ("location", .lit (optPV a.location))] }]
      edges := [{ key := ⟨personKey familyMemberId, "HAS_APPOINTMENT", aKey, []⟩ }] }

/-- `generate_neo4j_queries`: the full ordered query list. -/
def narrativeQueries (doc : MedicalDocument) (familyMemberId : String)
    (fullLegalName preferredName : Option String) (birthInfo : Option BirthInfo)
    (additionalAliases : Option (List String)) (today : String) : List QueryOp :=
  let docDate := (doc.document_date).getD today
  QueryOp.upsert (narrativePersonOp doc familyMemberId fullLegalName preferredName birthInfo) ::
    (narrativeLocationOps familyMemberId birthInfo ++
     narrativeAliasOps familyMemberId fullLegalName preferredName ++
     narrativeNicknameOps familyMemberId additionalAliases ++
     narrativeProviderOps doc ++
     narrativeLabOps doc familyMemberId ++
     doc.conditions.map (narrativeConditionOp familyMemberId docDate) ++
     doc.appointments.map (narrativeAppointmentOp familyMemberId))

/-! ## Key-set lemmas for upsert sequences

The backbone of the idempotence claims: a merge only ever appends its own
key, matched merges leave the key lists untouched, and after one full run
every key of every operation is present. -/

theorem any_fst_eq_iff {α β : Type} [DecidableEq α] (l : List (α × β)) (k : α) :
    (l.any fun p => p.1 = k) = true ↔ k ∈ l.map Prod.fst := by
  rw [List.any_eq_true]
  constructor
  · rintro ⟨p, hp, he⟩
    exact List.mem_map.mpr ⟨p, hp, of_decide_eq_true he⟩
  · rintro hk
    obtain ⟨p, hp, he⟩ := List.mem_map.mp hk
    exact ⟨p, hp, decide_eq_true he⟩

theorem mapFst_condUpdate {α β : Type} [DecidableEq α] (l : List (α × β)) (k : α)
    (f : α × β → β) :
    (l.map fun p => if p.1 = k then (p.1, f p) else p).map Prod.fst = l.map Prod.fst := by
  induction l with
  | nil => rfl
  | cons h t ih => by_cases hk : h.1 = k <;> simp [hk, ih]

theorem nodes_applyEdgeMerge (g : Graph) (em : EdgeMerge) :
    (applyEdgeMerge g em).nodes = g.nodes := by
  unfold applyEdgeMerge; split <;> rfl

theorem edges_applyNodeMerge (g : Graph) (nm : NodeMerge) :
    (applyNodeMerge g nm).edges = g.edges := by
  unfold applyNodeMerge; split <;> rfl

theorem nkeys_applyNodeMerge_mem (g : Graph) (nm : NodeMerge) (h : nm.key ∈ nkeys g) :
    nkeys (applyNodeMerge g nm) = nkeys g := by
  have hb : (g.nodes.any fun p => p.1 = nm.key) = true := (any_fst_eq_iff _ _).mpr h
  have hg : applyNodeMerge g nm = { g with nodes := g.nodes.map (fun p =>
      if p.1 = nm.key then (p.1, applySets p.2 nm.always) else p) } := by
    unfold applyNodeMerge; rw [if_pos hb]
  rw [hg]
  exact mapFst_condUpdate g.nodes nm.key (fun p => applySets p.2 nm.always)

theorem nkeys_applyNodeMerge_not_mem (g : Graph) (nm : NodeMerge) (h : nm.key ∉ nkeys g) :
    nkeys (applyNodeMerge g nm) = nkeys g ++ [nm.key] := by
  have hb : (g.nodes.any fun p => p.1 = nm.key) = false := by
    by_contra hc
    exact h ((any_fst_eq_iff _ _).mp (by revert hc; cases g.nodes.any fun p => p.1 = nm.key <;>
      simp))
  simp [applyNodeMerge, hb, nkeys]

theorem key_mem_applyNodeMerge (g : Graph) (nm : NodeMerge) :
    nm.key ∈ nkeys (applyNodeMerge g nm) := by
  by_cases h : nm.key ∈ nkeys g
  · rw [nkeys_applyNodeMerge_mem g nm h]; exact h
  · rw [nkeys_applyNodeMerge_not_mem g nm h]; simp

theorem ekeys_applyEdgeMerge_mem (g : Graph) (em : EdgeMerge) (h : em.key ∈ ekeys g) :
    ekeys (applyEdgeMerge g em) = ekeys g := by
  have hb : (g.edges.any fun p => p.1 = em.key) = true := (any_fst_eq_iff _ _).mpr h
  have hg : applyEdgeMerge g em = { g with edges := g.edges.map (fun p =>
      if p.1 = em.key then (p.1, applyPSets p.2 em.always) else p) } := by
    unfold applyEdgeMerge; rw [if_pos hb]
  rw [hg]
  exact mapFst_condUpdate g.edges em.key (fun p => applyPSets p.2 em.always)

theorem ekeys_applyEdgeMerge_not_mem (g : Graph) (em : EdgeMerge) (h : em.key ∉ ekeys g) :
    ekeys (applyEdgeMerge g em) = ekeys g ++ [em.key] := by
  have hb : (g.edges.any fun p => p.1 = em.key) = false := by
    by_contra hc
    exact h ((any_fst_eq_iff _ _).mp (by revert hc; cases g.edges.any fun p => p.1 = em.key <;>
      simp))
  simp [applyEdgeMerge, hb, ekeys]

theorem key_mem_applyEdgeMerge (g : Graph) (em : EdgeMerge) :
    em.key ∈ ekeys (applyEdgeMerge g em) := by
  by_cases h : em.key ∈ ekeys g
  · rw [ekeys_applyEdgeMerge_mem g em h]; exact h
  · rw [ekeys_applyEdgeMerge_not_mem g em h]; simp

theorem nkeys_applyNodeMerge_ext (g : Graph) (nm : NodeMerge) :
    ∃ t, nkeys (applyNodeMerge g nm) = nkeys g ++ t := by
  by_cases h : nm.key ∈ nkeys g
  · exact ⟨[], by simp [nkeys_applyNodeMerge_mem g nm h]⟩
  · exact ⟨[nm.key], nkeys_applyNodeMerge_not_mem g nm h⟩

theorem ekeys_applyEdgeMerge_ext (g : Graph) (em : EdgeMerge) :
    ∃ t, ekeys (applyEdgeMerge g em) = ekeys g ++ t := by
  by_cases h : em.key ∈ ekeys g
  · exact ⟨[], by simp [ekeys_applyEdgeMerge_mem g em h]⟩
  · exact ⟨[em.key], ekeys_applyEdgeMerge_not_mem g em h⟩

theorem nodes_foldEM (es : List EdgeMerge) (g : Graph) :
    (es.foldl applyEdgeMerge g).nodes = g.nodes := by
  induction es generalizing g with
  | nil => rfl
  | cons e es ih => rw [List.foldl_cons, ih, nodes_applyEdgeMerge]

theorem edges_foldNM (ms : List NodeMerge) (g : Graph) :
    (ms.foldl applyNodeMerge g).edges = g.edges := by
  induction ms generalizing g with
  | nil => rfl
  | cons m ms ih => rw [List.foldl_cons, ih, edges_applyNodeMerge]

theorem nkeys_foldNM_ext (ms : List NodeMerge) (g : Graph) :
    ∃ t, nkeys (ms.foldl applyNodeMerge g) = nkeys g ++ t := by
  induction ms generalizing g with
  | nil => exact ⟨[], by simp⟩
  | cons m ms ih =>
    obtain ⟨t1, ht1⟩ := nkeys_applyNodeMerge_ext g m
    obtain ⟨t2, ht2⟩ := ih (applyNodeMerge g m)
    exact ⟨t1 ++ t2, by rw [List.foldl_cons, ht2, ht1, List.append_assoc]⟩

theorem ekeys_foldEM_ext (es : List EdgeMerge) (g : Graph) :
    ∃ t, ekeys (es.foldl applyEdgeMerge g) = ekeys g ++ t := by
  induction es generalizing g with
  | nil => exact ⟨[], by simp⟩
  | cons e es ih =>
    obtain ⟨t1, ht1⟩ := ekeys_applyEdgeMerge_ext g e
    obtain ⟨t2, ht2⟩ := ih (applyEdgeMerge g e)
    exact ⟨t1 ++ t2, by rw [List.foldl_cons, ht2, ht1, List.append_assoc]⟩

theorem nkeys_applyUpsert_ext (g : Graph) (u : UpsertOp) :
    ∃ t, nkeys (applyUpsert g u) = nkeys g ++ t := by
  obtain ⟨t, ht⟩ := nkeys_foldNM_ext u.nodes g
  refine ⟨t, ?_⟩
  show nkeys (u.edges.foldl applyEdgeMerge (u.nodes.foldl applyNodeMerge g)) = _
  rw [show nkeys (u.edges.foldl applyEdgeMerge (u.nodes.foldl applyNodeMerge g)) =
      nkeys (u.nodes.foldl applyNodeMerge g) from congrArg (List.map Prod.fst)
        (nodes_foldEM _ _), ht]

theorem ekeys_applyUpsert_ext (g : Graph) (u : UpsertOp) :
    ∃ t, ekeys (applyUpsert g u) = ekeys g ++ t := by
  obtain ⟨t, ht⟩ := ekeys_foldEM_ext u.edges (u.nodes.foldl applyNodeMerge g)
  refine ⟨t, ?_⟩
  show ekeys (u.edges.foldl applyEdgeMerge (u.nodes.foldl applyNodeMerge g)) = _
  rw [ht, show ekeys (u.nodes.foldl applyNodeMerge g) = ekeys g from
    congrArg (List.map Prod.fst) (edges_foldNM _ _)]

theorem nkeys_applyOp_ext (g : Graph) (u : UpsertOp) :
    ∃ t, nkeys (applyOp g u) = nkeys g ++ t := by
  unfold applyOp
  match u.matchReq with
  | none => exact nkeys_applyUpsert_ext g u
  | some k =>
    by_cases h : (g.nodes.any fun p => p.1 = k) = true
    · simp only [h, if_true]; exact nkeys_applyUpsert_ext g u
    · simp only [h, if_false]; exact ⟨[], by simp⟩

theorem ekeys_applyOp_ext (g : Graph) (u : UpsertOp) :
    ∃ t, ekeys (applyOp g u) = ekeys g ++ t := by
  unfold applyOp
  match u.matchReq with
  | none => exact ekeys_applyUpsert_ext g u
  | some k =>
    by_cases h : (g.nodes.any fun p => p.1 = k) = true
    · simp only [h, if_true]; exact ekeys_applyUpsert_ext g u
    · simp only [h, if_false]; exact ⟨[], by simp⟩

theorem nkeys_runOps_ext (ops : List UpsertOp) (g : Graph) :
    ∃ t, nkeys (runOps ops g) = nkeys g ++ t := by
  induction ops generalizing g with
  | nil => exact ⟨[], by simp [runOps]⟩
  | cons u ops ih =>
    obtain ⟨t1, ht1⟩ := nkeys_applyOp_ext g u
    obtain ⟨t2, ht2⟩ := ih (applyOp g u)
    exact ⟨t1 ++ t2, by
      show nkeys (runOps ops (applyOp g u)) = _
      rw [ht2, ht1, List.append_assoc]⟩

theorem ekeys_runOps_ext (ops : List UpsertOp) (g : Graph) :
    ∃ t, ekeys (runOps ops g) = ekeys g ++ t := by
  induction ops generalizing g with
  | nil => exact ⟨[], by simp [runOps]⟩
  | cons u ops ih =>
    obtain ⟨t1, ht1⟩ := ekeys_applyOp_ext g u
    obtain ⟨t2, ht2⟩ := ih (applyOp g u)
    exact ⟨t1 ++ t2, by
      show ekeys (runOps ops (applyOp g u)) = _
      rw [ht2, ht1, List.append_assoc]⟩

theorem mem_nkeys_runOps {k : NodeKey} {g : Graph} (ops : List UpsertOp)
    (h : k ∈ nkeys g) : k ∈ nkeys (runOps ops g) := by
  obtain ⟨t, ht⟩ := nkeys_runOps_ext ops g
  rw [ht]; exact List.mem_append_left _ h

theorem mem_ekeys_runOps {k : EdgeKey} {g : Graph} (ops : List UpsertOp)
    (h : k ∈ ekeys g) : k ∈ ekeys (runOps ops g) := by
  obtain ⟨t, ht⟩ := ekeys_runOps_ext ops g
  rw [ht]; exact List.mem_append_left _ h

/-- All keys an operation needs are already present in the graph. -/
def opKeysIn (u : UpsertOp) (g : Graph) : Prop :=
  (∀ nm ∈ u.nodes, nm.key ∈ nkeys g) ∧ (∀ em ∈ u.edges, em.key ∈ ekeys g)

theorem opKeysIn_of_eq {u : UpsertOp} {g g' : Graph} (h : opKeysIn u g)
    (hn : nkeys g' = nkeys g) (he : ekeys g' = ekeys g) : opKeysIn u g' :=
  ⟨fun nm hm => hn ▸ h.1 nm hm, fun em hm => he ▸ h.2 em hm⟩

theorem opKeysIn_runOps_mono {u : UpsertOp} {g : Graph} (ops : List UpsertOp)
    (h : opKeysIn u g) : opKeysIn u (runOps ops g) :=
  ⟨fun nm hm => mem_nkeys_runOps ops (h.1 nm hm),
   fun em hm => mem_ekeys_runOps ops (h.2 em hm)⟩

theorem key_in_foldNM {nm : NodeMerge} (ms : List NodeMerge) (g : Graph)
    (hm : nm ∈ ms) : nm.key ∈ nkeys (ms.foldl applyNodeMerge g) := by
  induction ms generalizing g with
  | nil => cases hm
  | cons m ms ih =>
    rw [List.foldl_cons]
    rcases List.mem_cons.mp hm with heq | hm
    · subst heq
      obtain ⟨t, ht⟩ := nkeys_foldNM_ext ms (applyNodeMerge g nm)
      rw [ht]
      exact List.mem_append_left _ (key_mem_applyNodeMerge g nm)
    · exact ih (applyNodeMerge g m) hm

theorem key_in_foldEM {em : EdgeMerge} (es : List EdgeMerge) (g : Graph)
    (hm : em ∈ es) : em.key ∈ ekeys (es.foldl applyEdgeMerge g) := by
  induction es generalizing g with
  | nil => cases hm
  | cons e es ih =>
    rw [List.foldl_cons]
    rcases List.mem_cons.mp hm with heq | hm
    · subst heq
      obtain ⟨t, ht⟩ := ekeys_foldEM_ext es (applyEdgeMerge g em)
      rw [ht]
      exact List.mem_append_left _ (key_mem_applyEdgeMerge g em)
    · exact ih (applyEdgeMerge g e) hm

theorem opKeysIn_applyUpsert (g : Graph) (u : UpsertOp) : opKeysIn u (applyUpsert g u) := by
  constructor
  · intro nm hm
    show nm.key ∈ nkeys (u.edges.foldl applyEdgeMerge (u.nodes.foldl applyNodeMerge g))
    rw [show nkeys (u.edges.foldl applyEdgeMerge (u.nodes.foldl applyNodeMerge g)) =
        nkeys (u.nodes.foldl applyNodeMerge g) from congrArg (List.map Prod.fst)
          (nodes_foldEM _ _)]
    exact key_in_foldNM u.nodes g hm
  · intro em hm
    exact key_in_foldEM u.edges _ hm

theorem nkeys_foldNM_stable (ms : List NodeMerge) (g : Graph)
    (h : ∀ nm ∈ ms, nm.key ∈ nkeys g) : nkeys (ms.foldl applyNodeMerge g) = nkeys g := by
  induction ms generalizing g with
  | nil => rfl
  | cons m ms ih =>
    rw [List.foldl_cons]
    have h1 : nkeys (applyNodeMerge g m) = nkeys g :=
      nkeys_applyNodeMerge_mem g m (h m (by simp))
    rw [ih (applyNodeMerge g m) (fun nm hm => h1 ▸ h nm (by simp [hm])), h1]

theorem ekeys_foldEM_stable (es : List EdgeMerge) (g : Graph)
    (h : ∀ em ∈ es, em.key ∈ ekeys g) : ekeys (es.foldl applyEdgeMerge g) = ekeys g := by
  induction es generalizing g with
  | nil => rfl
  | cons e es ih =>
    rw [List.foldl_cons]
    have h1 : ekeys (applyEdgeMerge g e) = ekeys g :=
      ekeys_applyEdgeMerge_mem g e (h e (by simp))
    rw [ih (applyEdgeMerge g e) (fun em hm => h1 ▸ h em (by simp [hm])), h1]

theorem applyUpsert_stable (g : Graph) (u : UpsertOp) (h : opKeysIn u g) :
    nkeys (applyUpsert g u) = nkeys g ∧ ekeys (applyUpsert g u) = ekeys g := by
  have hn : nkeys (u.nodes.foldl applyNodeMerge g) = nkeys g := nkeys_foldNM_stable _ _ h.1
  have hedges : ekeys (u.nodes.foldl applyNodeMerge g) = ekeys g :=
    congrArg (List.map Prod.fst) (edges_foldNM _ _)
  constructor
  · show nkeys (u.edges.foldl applyEdgeMerge (u.nodes.foldl applyNodeMerge g)) = nkeys g
    rw [show nkeys (u.edges.foldl applyEdgeMerge (u.nodes.foldl applyNodeMerge g)) =
        nkeys (u.nodes.foldl applyNodeMerge g) from congrArg (List.map Prod.fst)
          (nodes_foldEM _ _), hn]
  · show ekeys (u.edges.foldl applyEdgeMerge (u.nodes.foldl applyNodeMerge g)) = ekeys g
    rw [ekeys_foldEM_stable _ _ (fun em hm => hedges ▸ h.2 em hm), hedges]

theorem applyOp_stable (g : Graph) (u : UpsertOp) (h : opKeysIn u g) :
    nkeys (applyOp g u) = nkeys g ∧ ekeys (applyOp g u) = ekeys g := by
  unfold applyOp
  match u.matchReq with
  | none => exact applyUpsert_stable g u h
  | some k =>
    by_cases hb : (g.nodes.any fun p => p.1 = k) = true
    · simp only [hb, if_true]; exact applyUpsert_stable g u h
    · simp only [hb, if_false]; exact ⟨rfl, rfl⟩

theorem runOps_stable (ops : List UpsertOp) (g : Graph)
    (h : ∀ u ∈ ops, opKeysIn u g) :
    nkeys (runOps ops g) = nkeys g ∧ ekeys (runOps ops g) = ekeys g := by
  induction ops generalizing g with
  | nil => exact ⟨rfl, rfl⟩
  | cons u ops ih =>
    have h1 := applyOp_stable g u (h u (by simp))
    have h2 := ih (applyOp g u)
      (fun v hv => opKeysIn_of_eq (h v (by simp [hv])) h1.1 h1.2)
    show nkeys (runOps ops (applyOp g u)) = nkeys g ∧
      ekeys (runOps ops (applyOp g u)) = ekeys g
    exact ⟨h2.1.trans h1.1, h2.2.trans h1.2⟩

theorem applyOp_of_matchNone {g : Graph} {u : UpsertOp} (h : u.matchReq = none) :
    applyOp g u = applyUpsert g u := by
  unfold applyOp; rw [h]

theorem applyOp_of_matchMem {g : Graph} {u : UpsertOp} {k : NodeKey}
    (h : u.matchReq = some k) (hk : k ∈ nkeys g) : applyOp g u = applyUpsert g u := by
  have hb : (g.nodes.any fun p => p.1 = k) = true := (any_fst_eq_iff _ _).mpr hk
  simp [applyOp, h, hb]

theorem pk_in_applyUpsert {g : Graph} {u : UpsertOp} {pk : NodeKey}
    (hpk : pk ∈ u.nodes.map NodeMerge.key) : pk ∈ nkeys (applyUpsert g u) := by
  obtain ⟨nm, hnm, hkey⟩ := List.mem_map.mp hpk
  subst hkey
  exact (opKeysIn_applyUpsert g u).1 nm hnm

/-- After one full run of a well-structured sequence (a leading
unconditional operation carrying the anchor key, every later operation
`MATCH`ing that anchor), every operation's keys are present. -/
theorem opKeysIn_all_after (p : UpsertOp) (rest : List UpsertOp) (pk : NodeKey)
    (hp : p.matchReq = none) (hpk : pk ∈ p.nodes.map NodeMerge.key)
    (hrest : ∀ u ∈ rest, u.matchReq = some pk) (g : Graph) :
    ∀ u ∈ (p :: rest), opKeysIn u (runOps (p :: rest) g) := by
  intro u hu
  have hrun : runOps (p :: rest) g = runOps rest (applyOp g p) := rfl
  have hPexec : applyOp g p = applyUpsert g p := applyOp_of_matchNone hp
  rcases List.mem_cons.mp hu with heq | hu
  · subst heq
    rw [hrun]
    exact opKeysIn_runOps_mono rest (hPexec ▸ opKeysIn_applyUpsert g u)
  · obtain ⟨r1, r2, hsplit⟩ := List.append_of_mem hu
    have hpk1 : pk ∈ nkeys (applyOp g p) := by
      rw [hPexec]; exact pk_in_applyUpsert hpk
    have hstep : runOps (r1 ++ u :: r2) (applyOp g p) =
        runOps r2 (applyOp (runOps r1 (applyOp g p)) u) := by
      simp [runOps, List.foldl_append]
    rw [hrun, hsplit, hstep]
    have hpkU : pk ∈ nkeys (runOps r1 (applyOp g p)) := mem_nkeys_runOps r1 hpk1
    have hexec : applyOp (runOps r1 (applyOp g p)) u =
        applyUpsert (runOps r1 (applyOp g p)) u :=
      applyOp_of_matchMem (hrest u hu) hpkU
    exact opKeysIn_runOps_mono r2 (hexec ▸ opKeysIn_applyUpsert _ u)

/-- Running a well-structured upsert sequence a second time changes
neither the node-key list nor the edge-key list. -/
theorem runOps_idem_keys (p : UpsertOp) (rest : List UpsertOp) (pk : NodeKey)
    (hp : p.matchReq = none) (hpk : pk ∈ p.nodes.map NodeMerge.key)
    (hrest : ∀ u ∈ rest, u.matchReq = some pk) (g : Graph) :
    nkeys (runOps (p :: rest) (runOps (p :: rest) g)) = nkeys (runOps (p :: rest) g) ∧
    ekeys (runOps (p :: rest) (runOps (p :: rest) g)) = ekeys (runOps (p :: rest) g) :=
  runOps_stable _ _ (opKeysIn_all_after p rest pk hp hpk hrest g)

/-! ## C1: checkpoint re-import idempotence -/

theorem checkpointOps_tail_match (mid : String) (d : ParsedData) :
    ∀ u ∈ (checkpointLocOps mid d ++
      d.aliases.map (checkpointAliasOp mid) ++
      d.health_risks.map (checkpointRiskOp mid) ++
      d.conditions.map (checkpointCondOp mid) ++
      d.medications.map (checkpointMedOp mid)), u.matchReq = some (personKey mid) := by
  intro u hu
  simp only [List.mem_append, List.mem_map] at hu
  rcases hu with ((((hu | hu) | hu) | hu) | hu)
  · unfold checkpointLocOps at hu
    by_cases hc : (pyTruthyS (infoGet d "birth_city") &&
        pyTruthyS (infoGet d "birth_country")) = true
    · simp only [hc, if_true, List.mem_singleton] at hu
      subst hu; rfl
    · simp only [Bool.not_eq_true] at hc
      simp [hc] at hu
  · obtain ⟨a, _, rfl⟩ := hu; rfl
  · obtain ⟨a, _, rfl⟩ := hu; rfl
  · obtain ⟨a, _, rfl⟩ := hu; rfl
  · obtain ⟨a, _, rfl⟩ := hu; rfl

theorem checkpointPersonOp_matchReq (mid : String) (d : ParsedData) :
    (checkpointPersonOp mid d).matchReq = none := rfl

theorem personKey_mem_personOp (mid : String) (d : ParsedData) :
    personKey mid ∈ (checkpointPersonOp mid d).nodes.map NodeMerge.key := by
  simp [checkpointPersonOp]

/-- **C1.** For every checkpoint document text and every starting graph
state, running the checkpoint import (`parse_checkpoint` followed by
`import_checkpoint`'s mutation sequence) a second time yields a graph with
exactly the same node-key list (hence no additional Condition, Medication,
Alias, HealthRisk, Location, or Person node) and the same edge-key list:
every write locates its target by natural key (`MERGE`) before setting
attributes. -/
theorem checkpoint_reimport_same_keys (content : String) (g g1 : Graph)
    (h : importCheckpoint (parseCheckpoint content) g = .ok g1) :
    ∃ g2, importCheckpoint (parseCheckpoint content) g1 = .ok g2 ∧
      nkeys g2 = nkeys g1 ∧ ekeys g2 = ekeys g1 := by
  rcases hm : (parseCheckpoint content).member_id with _ | mid
  · unfold importCheckpoint at h; rw [hm] at h; cases h
  · unfold importCheckpoint at h ⊢
    rw [hm] at h ⊢
    dsimp only at h ⊢
    by_cases he : mid.isEmpty
    · rw [if_pos he] at h; cases h
    · rw [if_neg he] at h ⊢
      have hg1 : runOps (checkpointOps mid (parseCheckpoint content)) g = g1 :=
        Except.ok.inj h
      refine ⟨runOps (checkpointOps mid (parseCheckpoint content)) g1, rfl, ?_, ?_⟩
      · subst hg1
        exact (runOps_idem_keys _ _ (personKey mid)
          (checkpointPersonOp_matchReq mid _) (personKey_mem_personOp mid _)
          (checkpointOps_tail_match mid _) g).1
      · subst hg1
        exact (runOps_idem_keys _ _ (personKey mid)
          (checkpointPersonOp_matchReq mid _) (personKey_mem_personOp mid _)
          (checkpointOps_tail_match mid _) g).2

/-- A minimal concrete checkpoint document (member id in the trailing
comment block only). -/
def chkDoc : String := "<!--\nmember_id: ab\n-->"

def chkFirstRun : Graph :=
  runOps (checkpointOps "ab" (parseCheckpoint chkDoc)) {}

/-- Witness for C1 at a concrete document and the empty graph. -/
theorem checkpoint_reimport_same_keys_witness :
    ∃ g2, importCheckpoint (parseCheckpoint chkDoc) chkFirstRun = .ok g2 ∧
      nkeys g2 = nkeys chkFirstRun ∧ ekeys g2 = ekeys chkFirstRun :=
  checkpoint_reimport_same_keys chkDoc {} chkFirstRun rfl

/-! ## C8: member-id recovery and the fail-before-write contract -/

/-- A checkpoint document carrying a `member_id:` token in the trailing
comment block and a *different* id on the bolded `**Member ID:**` line. -/
def c8Doc : String :=
  "# T\n**Member ID:** `bbb`\n<!--\nmember_id: aaa\n-->\n"

/-- **C8 counterexample.** The comment-block token holds `aaa`, yet
`parse_checkpoint` returns `bbb`: the bolded line *overrides* the token,
the reverse of the claimed comment-block-first, bolded-line-as-fallback
order. -/
theorem member_id_precedence_counterexample :
    searchMemberToken c8Doc.data = some "aaa".data ∧
    (parseCheckpoint c8Doc).member_id = some "bbb" := by
  constructor <;> rfl

/-- **C8 (amended).** `parse_checkpoint` recovers the member id from the
bolded `**Member ID:**` line when present, falling back to a `member_id:`
token anywhere in the text (the trailing comment block included); and for
every parsed checkpoint in which no member id was recovered,
`import_checkpoint` fails with an error before performing any graph write
(the graph state is not touched on this failure). -/
theorem member_id_recovery_amended (content : String) (g : Graph) :
    (parseCheckpoint content).member_id =
      (match searchBoldMemberId content.data with
       | some b => some (String.mk b)
       | none => (searchMemberToken content.data).map String.mk) ∧
    ((parseCheckpoint content).member_id = none →
      importCheckpoint (parseCheckpoint content) g =
        .error "No member_id found in checkpoint") := by
  constructor
  · rfl
  · intro h
    unfold importCheckpoint
    rw [h]

/-- Witness for C8 at a concrete id-less document and the empty graph. -/
theorem member_id_recovery_amended_witness :
    (parseCheckpoint "hello").member_id =
      (match searchBoldMemberId "hello".data with
       | some b => some (String.mk b)
       | none => (searchMemberToken "hello".data).map String.mk) ∧
    importCheckpoint (parseCheckpoint "hello") {} =
      .error "No member_id found in checkpoint" := by
  have h := member_id_recovery_amended "hello" {}
  exact ⟨h.1, h.2 rfl⟩

/-! ## C2: merge-by-key upserts and the overwrite discipline -/

theorem find?_condUpdate {α β : Type} [DecidableEq α] (l : List (α × β)) (k : α)
    (f : α × β → β) :
    (l.map fun p => if p.1 = k then (p.1, f p) else p).find? (fun p => p.1 = k) =
      (l.find? (fun p => p.1 = k)).map (fun p => (p.1, f p)) := by
  induction l with
  | nil => rfl
  | cons h t ih => by_cases hk : h.1 = k <;> simp [List.find?_cons, hk, ih]

/-- Last-write-wins on an existing node: a matched `MERGE ... SET`
overwrites the node's attributes with the supplied `SET` list. -/
theorem nodeFind_applyNodeMerge_found (g : Graph) (nm : NodeMerge) (a : AttrMap)
    (h : nodeFind g nm.key = some a) :
    nodeFind (applyNodeMerge g nm) nm.key = some (applySets a nm.always) := by
  obtain ⟨p, hfind, hpa⟩ : ∃ p, g.nodes.find? (fun q => q.1 = nm.key) = some p ∧ p.2 = a := by
    unfold nodeFind at h
    cases hf : g.nodes.find? (fun q => q.1 = nm.key) with
    | none => rw [hf] at h; cases h
    | some p => rw [hf] at h; exact ⟨p, rfl, Option.some.inj h⟩
  have hmem : nm.key ∈ nkeys g := by
    have hp := List.mem_of_find?_eq_some hfind
    have hk' := List.find?_some hfind
    exact List.mem_map.mpr ⟨p, hp, of_decide_eq_true hk'⟩
  have hb : (g.nodes.any fun q => q.1 = nm.key) = true := (any_fst_eq_iff _ _).mpr hmem
  have hg : applyNodeMerge g nm = { g with nodes := g.nodes.map (fun q =>
      if q.1 = nm.key then (q.1, applySets q.2 nm.always) else q) } := by
    unfold applyNodeMerge; rw [if_pos hb]
  rw [hg]
  unfold nodeFind
  rw [show ({ g with nodes := g.nodes.map (fun q =>
      if q.1 = nm.key then (q.1, applySets q.2 nm.always) else q) } : Graph).nodes =
    g.nodes.map (fun q => if q.1 = nm.key then (q.1, applySets q.2 nm.always) else q)
    from rfl]
  rw [find?_condUpdate g.nodes nm.key (fun q => applySets q.2 nm.always), hfind]
  simp [hpa]

theorem nodeFind_congr {g g' : Graph} (h : g.nodes = g'.nodes) (k : NodeKey) :
    nodeFind g k = nodeFind g' k := by
  unfold nodeFind; rw [h]

/-- A single-node upsert whose `SET` list is empty (all writes under
`ON CREATE SET`) leaves an existing target node's attributes unchanged. -/
theorem nodeFind_applyOp_onCreateOnly (g : Graph) (nm : NodeMerge)
    (es : List EdgeMerge) (mr : Option NodeKey) (a : AttrMap)
    (h : nodeFind g nm.key = some a) (halw : nm.always = []) :
    nodeFind (applyOp g { matchReq := mr, nodes := [nm], edges := es }) nm.key = some a := by
  have core : nodeFind (applyUpsert g { matchReq := mr, nodes := [nm], edges := es })
      nm.key = some a := by
    show nodeFind (es.foldl applyEdgeMerge (([nm] : List NodeMerge).foldl applyNodeMerge g))
      nm.key = some a
    rw [nodeFind_congr (nodes_foldEM es _) nm.key]
    show nodeFind (applyNodeMerge g nm) nm.key = some a
    rw [nodeFind_applyNodeMerge_found g nm a h, halw]
    rfl
  unfold applyOp
  cases mr with
  | none => exact core
  | some k =>
    dsimp only
    by_cases hb : (g.nodes.any fun p => p.1 = k) = true
    · rw [if_pos hb]; exact core
    · rw [if_neg (by simp [hb])]; exact h

/-- A concrete graph already holding the member's Person node and an
Aspirin Medication node with `rxnorm_code = 111`. -/
def c2Graph : Graph :=
  { nodes := [(personKey "m1", [("id", .s "m1")]),
              (⟨"Medication", "name", "Aspirin"⟩,
               [("name", .s "Aspirin"), ("rxnorm_code", .s "111")])]
    edges := [] }

/-- A parsed CCD medication entry supplying `rxnorm_code = 222`. -/
def c2Med : MedR :=
  { name := some "Aspirin", rxnorm_code := some "222", dosage := some "81 mg"
    frequency := none, start_date := none, end_date := none, status := some "active" }

/-- **C2 counterexample.** Importing the Aspirin entry against a graph
whose Aspirin node carries `rxnorm_code = 111` leaves the node's
attributes untouched (`ON CREATE SET` only), even though the supplied
value was `222`: the CCD importer does *not* unconditionally overwrite
non-key attributes in the already-present case. -/
theorem ccd_overwrite_counterexample :
    c2Med.rxnorm_code = some "222" ∧
    nodeFind (applyOp c2Graph (ccdMedicationOp "m1" "medX" "Aspirin" c2Med))
        ⟨"Medication", "name", "Aspirin"⟩ =
      some [("name", .s "Aspirin"), ("rxnorm_code", .s "111")] := by
  constructor <;> rfl

/-- **C2 (amended).** Every upsert emitted by the three generators locates
its node or edge by natural key and creates it when absent.  The
overwrite discipline differs per generator: the checkpoint importer's
operations and the narrative generator's `MERGE`-based operations carry
no `ON CREATE SET` clause, so their `SET` lists overwrite attributes in
the created and the already-present case alike (last-write-wins); the
per-section CCD importers write non-key attributes under `ON CREATE SET`
only, leaving an existing node's or edge's attributes unchanged. -/
theorem upsert_overwrite_discipline_amended :
    (∀ (g : Graph) (nm : NodeMerge),
      (nm.key ∈ nkeys g → nkeys (applyNodeMerge g nm) = nkeys g) ∧
      (nm.key ∉ nkeys g → nkeys (applyNodeMerge g nm) = nkeys g ++ [nm.key])) ∧
    (∀ (g : Graph) (nm : NodeMerge) (a : AttrMap), nodeFind g nm.key = some a →
      nodeFind (applyNodeMerge g nm) nm.key = some (applySets a nm.always)) ∧
    (∀ (mid : String) (d : ParsedData), ∀ u ∈ checkpointOps mid d,
      (∀ nm ∈ u.nodes, nm.onCreate = []) ∧ (∀ em ∈ u.edges, em.onCreate = [])) ∧
    (∀ (doc : MedicalDocument) (mid : String) (fln pn : Option String)
       (bi : Option BirthInfo) (aa : Option (List String)) (today : String)
       (u : UpsertOp), QueryOp.upsert u ∈ narrativeQueries doc mid fln pn bi aa today →
      (∀ nm ∈ u.nodes, nm.onCreate = []) ∧ (∀ em ∈ u.edges, em.onCreate = [])) ∧
    (∀ (mid medId name : String) (med : MedR),
      (∀ nm ∈ (ccdMedicationOp mid medId name med).nodes, nm.always = []) ∧
      (∀ em ∈ (ccdMedicationOp mid medId name med).edges, em.always = [])) ∧
    (∀ (g : Graph) (mid medId name : String) (med : MedR) (a : AttrMap),
      nodeFind g ⟨"Medication", "name", name⟩ = some a →
      nodeFind (applyOp g (ccdMedicationOp mid medId name med))
        ⟨"Medication", "name", name⟩ = some a) := by
  refine ⟨?_, ?_, ?_, ?_, ?_, ?_⟩
  · intro g nm
    exact ⟨nkeys_applyNodeMerge_mem g nm, nkeys_applyNodeMerge_not_mem g nm⟩
  · exact nodeFind_applyNodeMerge_found
  · intro mid d u hu
    rcases List.mem_cons.mp hu with heq | hu
    · subst heq
      constructor
      · intro nm hnm
        simp only [checkpointPersonOp, List.mem_singleton] at hnm
        subst hnm; rfl
      · intro em hem
        simp [checkpointPersonOp] at hem
    · have := checkpointOps_tail_match mid d u hu
      revert hu
      simp only [List.mem_append, List.mem_map]
      rintro ((((hu | ⟨a, _, rfl⟩) | ⟨a, _, rfl⟩) | ⟨a, _, rfl⟩) | ⟨a, _, rfl⟩)
      · unfold checkpointLocOps at hu
        by_cases hc : (pyTruthyS (infoGet d "birth_city") &&
            pyTruthyS (infoGet d "birth_country")) = true
        · simp only [hc, if_true, List.mem_singleton] at hu
          subst hu
          exact ⟨by intro nm hnm; simp at hnm; subst hnm; rfl,
                 by intro em hem; simp at hem; subst hem; rfl⟩
        · simp only [Bool.not_eq_true] at hc
          simp [hc] at hu
      · exact ⟨by intro nm hnm; simp [checkpointAliasOp] at hnm; subst hnm; rfl,
               by intro em hem; simp [checkpointAliasOp] at hem; subst hem; rfl⟩
      · exact ⟨by intro nm hnm; simp [checkpointRiskOp] at hnm; subst hnm; rfl,
               by intro em hem; simp [checkpointRiskOp] at hem; subst hem; rfl⟩
      · exact ⟨by intro nm hnm; simp [checkpointCondOp] at hnm; subst hnm; rfl,
               by intro em hem; simp [checkpointCondOp] at hem; subst hem; rfl⟩
      · exact ⟨by intro nm hnm; simp [checkpointMedOp] at hnm; subst hnm; rfl,
               by intro em hem; simp [checkpointMedOp] at hem; subst hem; rfl⟩
  · intro doc mid fln pn bi aa today u hu
    unfold narrativeQueries at hu
    rcases List.mem_cons.mp hu with heq | hu
    · have hup := QueryOp.upsert.inj heq
      subst hup
      refine ⟨?_, ?_⟩
      · intro nm hnm
        simp only [narrativePersonOp, List.mem_singleton] at hnm
        subst hnm; rfl
      · intro em hem
        simp [narrativePersonOp] at hem
    · simp only [List.mem_append] at hu
      rcases hu with (((((hu | hu) | hu) | hu) | hu) | hu) | hu
      · match bi with
        | none => simp [narrativeLocationOps] at hu
        | some b =>
          unfold narrativeLocationOps at hu
          by_cases hc : (pyTruthyS b.birth_city && pyTruthyS b.birth_country) = true
          · simp only [hc, if_true, List.mem_singleton] at hu
            have hup := QueryOp.upsert.inj hu
            subst hup
            exact ⟨by intro nm hnm; simp only [List.mem_singleton] at hnm; subst hnm; rfl,
                   by intro em hem; simp only [List.mem_singleton] at hem; subst hem; rfl⟩
          · simp only [Bool.not_eq_true] at hc
            simp [hc] at hu
      · match fln with
        | none => simp [narrativeAliasOps] at hu
        | some f =>
          unfold narrativeAliasOps at hu
          by_cases hc : f.isEmpty = true
          · simp [hc] at hu
          · simp only [Bool.not_eq_true] at hc
            simp only [hc, Bool.false_eq_true, if_false, List.mem_map] at hu
            obtain ⟨al, _, hal⟩ := hu
            have hup := QueryOp.upsert.inj hal
            subst hup
            exact ⟨by intro nm hnm; simp only [narrativeAliasOp, List.mem_singleton] at hnm;
                      subst hnm; rfl,
                   by intro em hem; simp only [narrativeAliasOp, List.mem_singleton] at hem;
                      subst hem; rfl⟩
      · match aa with
        | none => simp [narrativeNicknameOps] at hu
        | some names =>
          unfold narrativeNicknameOps at hu
          by_cases hc : names.isEmpty = true
          · simp [hc] at hu
          · simp only [Bool.not_eq_true] at hc
            simp only [hc, Bool.false_eq_true, if_false, List.mem_map] at hu
            obtain ⟨n, _, hn⟩ := hu
            have hup := QueryOp.upsert.inj hn
            subst hup
            exact ⟨by intro nm hnm; simp only [narrativeNicknameOp, List.mem_singleton] at hnm;
                      subst hnm; rfl,
                   by intro em hem; simp only [narrativeNicknameOp, List.mem_singleton] at hem;
                      subst hem; rfl⟩
      · unfold narrativeProviderOps at hu
        match hp : doc.provider with
        | none => rw [hp] at hu; simp at hu
        | some prov =>
          rw [hp] at hu
          simp only [List.mem_singleton] at hu
          have hup := QueryOp.upsert.inj hu
          subst hup
          exact ⟨by intro nm hnm; simp only [List.mem_singleton] at hnm; subst hnm; rfl,
                 by intro em hem; simp at hem⟩
      · unfold narrativeLabOps at hu
        rcases List.mem_cons.mp hu with heq | hu
        · cases heq
        · simp only [List.mem_map] at hu
          obtain ⟨_, _, hl⟩ := hu
          cases hl
      · simp only [List.mem_map] at hu
        obtain ⟨c, _, hc⟩ := hu
        have hup := QueryOp.upsert.inj hc
        subst hup
        exact ⟨by intro nm hnm; simp only [narrativeConditionOp, List.mem_singleton] at hnm;
                  subst hnm; rfl,
               by intro em hem; simp only [narrativeConditionOp, List.mem_singleton] at hem;
                  subst hem; rfl⟩
      · simp only [List.mem_map] at hu
        obtain ⟨ap, _, ha⟩ := hu
        have hup := QueryOp.upsert.inj ha
        subst hup
        exact ⟨by intro nm hnm; simp only [narrativeAppointmentOp, List.mem_singleton] at hnm;
                  subst hnm; rfl,
               by intro em hem; simp only [narrativeAppointmentOp, List.mem_singleton] at hem;
                  subst hem; rfl⟩
  · intro mid medId name med
    exact ⟨by intro nm hnm; simp [ccdMedicationOp] at hnm; subst hnm; rfl,
           by intro em hem; simp [ccdMedicationOp] at hem; subst hem; rfl⟩
  · intro g mid medId name med a h
    exact nodeFind_applyOp_onCreateOnly g
      { key := ⟨"Medication", "name", name⟩
        onCreate := [("id", .s medId), ("rxnorm_code", optPV med.rxnorm_code)]
        always := [] } _ _ a h rfl

/-- Witness for the amended C2 at concrete operations and graphs. -/
theorem upsert_overwrite_discipline_amended_witness :
    nkeys (applyNodeMerge {} { key := ⟨"Condition", "name", "Flu"⟩ }) =
      [⟨"Condition", "name", "Flu"⟩] ∧
    (∀ nm ∈ (checkpointPersonOp "m" {}).nodes, nm.onCreate = []) ∧
    (∀ nm ∈ (ccdMedicationOp "m1" "x" "Aspirin" c2Med).nodes, nm.always = []) ∧
    nodeFind (applyOp c2Graph (ccdMedicationOp "m1" "x" "Aspirin" c2Med))
        ⟨"Medication", "name", "Aspirin"⟩ =
      some [("name", .s "Aspirin"), ("rxnorm_code", .s "111")] := by
  have t := upsert_overwrite_discipline_amended
  refine ⟨?_, ?_, ?_, ?_⟩
  · have h2 := (t.1 {} { key := ⟨"Condition", "name", "Flu"⟩ }).2 (by simp [nkeys])
    simpa using h2
  · exact (t.2.2.1 "m" {} (checkpointPersonOp "m" {}) (List.mem_cons_self _ _)).1
  · exact (t.2.2.2.2.1 "m1" "x" "Aspirin" c2Med).1
  · exact t.2.2.2.2.2 c2Graph "m1" "x" "Aspirin" c2Med
      [("name", .s "Aspirin"), ("rxnorm_code", .s "111")] rfl

/-! ## C4: HL7 date normalization -/

/-- **C4.** The HL7 date normalizer strips the timezone suffix and
truncates to the first 8 characters: `"20230815143000-0500"` yields
`"2023-08-15"`, and any input whose remaining string is shorter than 8
characters (such as `"2023"`) yields an absent date rather than a partial
guess (and the function is total: no exception). -/
theorem format_hl7_date_normalization :
    formatHl7Date (some "20230815143000-0500") = some "2023-08-15" ∧
    formatHl7Date (some "2023") = none ∧
    (∀ s : String, (stripTz s.data).length < 8 → formatHl7Date (some s) = none) := by
  refine ⟨rfl, rfl, ?_⟩
  intro s h
  simp only [formatHl7Date]
  split
  · rfl
  · split
    · omega
    · rfl

/-- Witness for C4's universal part at the concrete input `"2023"`. -/
theorem format_hl7_date_normalization_witness :
    (stripTz "2023".data).length < 8 ∧ formatHl7Date (some "2023") = none :=
  ⟨by decide, format_hl7_date_normalization.2.2 "2023" (by decide)⟩

/-! ## C6: lab-row parsing -/

/-- **C6.** Parsing the lab table row
`| **Glucose** | 105 mg/dL | 70-99 mg/dL |` (no flag marker) yields a
LabResult named `Glucose` with value `"105"`, unit `"mg/dL"`, reference
range `"70-99 mg/dL"` and flag `normal`. -/
theorem lab_row_glucose_parse :
    parseLabRow "| **Glucose** | 105 mg/dL | 70-99 mg/dL |" none =
      some { test_name := "Glucose", value := "105", unit := some "mg/dL"
             reference_range := some "70-99 mg/dL", flag := .normal
             category := none, interpretation := none } := by
  rfl

/-! ## C10: degenerate names yield no aliases -/

/-- **C10.** For every preferred-name argument, `generate_name_aliases`
returns the empty list whenever the full name has fewer than two
whitespace-separated parts (which covers the empty name); a single-word
name yields no aliases at all, not a one-element list. -/
theorem alias_empty_for_short_names (full : String) (pref : Option String)
    (h : (pySplitWs full.data).length < 2) :
    generateNameAliases full pref = [] := by
  unfold generateNameAliases
  by_cases he : full.isEmpty = true
  · rw [if_pos he]
  · rw [if_neg he]
    have hlen : (((pySplitWs full.data).map String.mk).length < 2) := by
      simpa using h
    rw [if_pos hlen]

/-- Witness for C10 at the single-word name `"Prince"`. -/
theorem alias_empty_for_short_names_witness :
    (pySplitWs "Prince".data).length < 2 ∧ generateNameAliases "Prince" none = [] :=
  ⟨by decide, alias_empty_for_short_names "Prince" none (by decide)⟩

/-! ## C9: invalid calendar dates are silently dropped -/

theorem pyLowerChar_digit {c : Char} (h : c.isDigit = true) : pyLowerChar c = c := by
  have h9 : c ≤ '9' := by
    unfold Char.isDigit at h
    rw [Bool.and_eq_true] at h
    exact of_decide_eq_true h.2
  unfold pyLowerChar
  rw [if_neg]
  rintro ⟨h1, _⟩
  exact absurd (le_trans h1 h9) (by decide)

theorem firstSome_eq_none {α β : Type} (f : α → Option β) (l : List α)
    (h : ∀ a ∈ l, f a = none) : firstSome f l = none := by
  induction l with
  | nil => rfl
  | cons a l ih =>
    simp only [firstSome, h a (by simp)]
    exact ih (fun x hx => h x (by simp [hx]))

theorem matchMonthHeader_digit_none {c : Char} (cs : List Char) (h : c.isDigit = true) :
    matchMonthHeader (c :: cs) = none := by
  have hlc := pyLowerChar_digit h
  have hx : ∀ l : Char, l.isDigit = false → (l = c) = False := by
    intro l hl
    apply eq_false
    intro he
    rw [he] at hl
    rw [hl] at h
    cases h
  apply firstSome_eq_none
  intro a ha
  simp only [monthNames, List.mem_cons, List.not_mem_nil, or_false] at ha
  rcases ha with rfl | rfl | rfl | rfl | rfl | rfl | rfl | rfl | rfl | rfl | rfl | rfl <;>
    simp only [show "January".data = ['J', 'a', 'n', 'u', 'a', 'r', 'y'] from rfl,
      show "February".data = ['F', 'e', 'b', 'r', 'u', 'a', 'r', 'y'] from rfl,
      show "March".data = ['M', 'a', 'r', 'c', 'h'] from rfl,
      show "April".data = ['A', 'p', 'r', 'i', 'l'] from rfl,
      show "May".data = ['M', 'a', 'y'] from rfl,
      show "June".data = ['J', 'u', 'n', 'e'] from rfl,
      show "July".data = ['J', 'u', 'l', 'y'] from rfl,
      show "August".data = ['A', 'u', 'g', 'u', 's', 't'] from rfl,
      show "September".data = ['S', 'e', 'p', 't', 'e', 'm', 'b', 'e', 'r'] from rfl,
      show "October".data = ['O', 'c', 't', 'o', 'b', 'e', 'r'] from rfl,
      show "November".data = ['N', 'o', 'v', 'e', 'm', 'b', 'e', 'r'] from rfl,
      show "December".data = ['D', 'e', 'c', 'e', 'm', 'b', 'e', 'r'] from rfl,
      startsWithCI, hlc,
      show pyLowerChar 'J' = 'j' from by decide, show pyLowerChar 'F' = 'f' from by decide,
      show pyLowerChar 'M' = 'm' from by decide, show pyLowerChar 'A' = 'a' from by decide,
      show pyLowerChar 'S' = 's' from by decide, show pyLowerChar 'O' = 'o' from by decide,
      show pyLowerChar 'N' = 'n' from by decide, show pyLowerChar 'D' = 'd' from by decide,
      hx 'j' (by decide), hx 'f' (by decide), hx 'm' (by decide), hx 'a' (by decide),
      hx 's' (by decide), hx 'o' (by decide), hx 'n' (by decide), hx 'd' (by decide),
      decide_False, Bool.false_and, Bool.false_eq_true, if_false]

theorem matchAppt_head_digit {cs : List Char} {r : Nat × List Char × List Char}
    (h : matchAppt cs = some r) : ∃ c cs', cs = c :: cs' ∧ c.isDigit = true := by
  match cs with
  | [] => simp [matchAppt] at h
  | c :: cs' =>
    refine ⟨c, cs', rfl, ?_⟩
    by_contra hd
    simp only [Bool.not_eq_true] at hd
    simp [matchAppt, hd] at h

/-- **C9.** During appointment extraction, a line matching the appointment
pattern whose day number combined with the currently held month and year
does not form a valid calendar date emits no Appointment record, raises no
error (the scan is a total function), and extraction continues with the
remaining lines under the same month/year state. -/
theorem appointment_invalid_date_skipped (line : List Char) (rest : List (List Char))
    (m y d : Nat) (t ty : List Char)
    (hm : matchAppt (pyStrip line) = some (d, t, ty))
    (hv : validDate y m d = false) :
    apptScan (line :: rest) (some m) (some y) = apptScan rest (some m) (some y) := by
  obtain ⟨c, cs', hcons, hdig⟩ := matchAppt_head_digit hm
  simp only [apptScan]
  rw [hcons, matchMonthHeader_digit_none cs' hdig, ← hcons]
  simp only [hm]
  rw [if_neg (by simp [hv])]

/-- Witness for C9: February 31, 2025 is dropped. -/
theorem appointment_invalid_date_skipped_witness :
    matchAppt (pyStrip "31 Tue 9:00 a.m. MT VA appointment".data) =
      some (31, "9:00 a.m.".data, "VA appointment".data) ∧
    validDate 2025 2 31 = false ∧
    apptScan ["31 Tue 9:00 a.m. MT VA appointment".data] (some 2) (some 2025) =
      apptScan [] (some 2) (some 2025) :=
  ⟨rfl, by decide,
   appointment_invalid_date_skipped "31 Tue 9:00 a.m. MT VA appointment".data [] 2 2025 31
     "9:00 a.m.".data "VA appointment".data rfl (by decide)⟩

/-! ## C5: alias generation -/

theorem core_mem_firstLast (parts : List String) (pref : Option String) :
    { name := parts.headD "" ++ " " ++ lastD "" parts, source := "form_truncation",
      is_primary := false } ∈ generateNameAliasesCore parts pref := by
  unfold generateNameAliasesCore
  exact List.mem_append_left _ (List.mem_append_left _ (List.mem_cons_self _ _))

theorem core_mem_initials (parts : List String) (pref : Option String) :
    { name := initialOf (parts.headD "") ++ ". " ++ lastD "" parts,
      source := "form_truncation", is_primary := false } ∈
      generateNameAliasesCore parts pref := by
  unfold generateNameAliasesCore
  exact List.mem_append_left _ (List.mem_append_left _
    (List.mem_cons_of_mem _ (List.mem_cons_self _ _)))

theorem core_mem_preferred (parts : List String) (p : String)
    (hpe : p.isEmpty = false)
    (hne : lowerEq p (parts.headD "") = false) :
    { name := p ++ " " ++ lastD "" parts, source := "preferred", is_primary := true } ∈
      generateNameAliasesCore parts (some p) := by
  unfold generateNameAliasesCore
  apply List.mem_append_left
  apply List.mem_append_right
  dsimp only
  rw [if_pos (show (!p.isEmpty && !lowerEq p (parts.headD "")) = true by
    rw [hpe, hne]; rfl)]
  exact List.mem_cons_self _ _

theorem core_mem_middle (parts : List String) (pref : Option String) (m : String)
    (hm : m ∈ (if 2 < parts.length then (parts.drop 1).dropLast else []))
    (hkeep : ∀ p, pref = some p → m ≠ p) :
    { name := m ++ " " ++ lastD "" parts, source := "middle_name_used",
      is_primary := false } ∈ generateNameAliasesCore parts pref := by
  unfold generateNameAliasesCore
  apply List.mem_append_right
  apply List.mem_flatMap.mpr
  refine ⟨m, hm, ?_⟩
  cases pref with
  | none => simp
  | some p =>
    have hb : (m != p) = true := by simpa using hkeep p rfl
    simp [hb]

/-- `"Bob bob Smith"` with preferred name `"bob"`: the middle name equals
the preferred name and the preferred name lower-equals the first name. -/
def c5Full : String := "Bob bob Smith"

/-- **C5 counterexample.** For full name `"Bob bob Smith"` with preferred
name `"bob"`, the output holds no variant derived from the middle name
`"bob"` at all — neither `"bob Smith"` nor `"Bob b. Smith"`, nor any alias
whose text contains `"bob"` — refuting "plus one variant per middle name";
the preferred-name variant is also absent because the comparison with the
first name is case-insensitive. -/
theorem alias_middle_name_counterexample :
    generateNameAliases c5Full (some "bob") =
      [{ name := "Bob Smith", source := "form_truncation", is_primary := false },
       { name := "B. Smith", source := "form_truncation", is_primary := false }] ∧
    (∀ a ∈ generateNameAliases c5Full (some "bob"), ¬ containsSub "bob".data a.name.data) := by
  refine ⟨by rfl, by decide⟩

/-- **C5 (amended).** Alias generation is a pure function, so repeated
calls agree; for every full name of at least two parts it produces the
canonical `"first last"` truncation and the initials form, a
preferred-name variant marked primary when the preferred name is
*non-empty* (Python truthiness of `if preferred_name and ...`) and
differs *case-insensitively* from the first name, and a `"middle last"`
variant for each middle name *not equal to the preferred name*; on the
spec's example the full list (and its primary-marked `"Collin Paran"`
entry) is as computed. -/
theorem alias_generation_amended :
    (generateNameAliases "Philip Collin Richard Navarro Paran" (some "Collin") =
      [{ name := "Philip Paran", source := "form_truncation", is_primary := false },
       { name := "P. Paran", source := "form_truncation", is_primary := false },
       { name := "Collin Paran", source := "preferred", is_primary := true },
       { name := "P. Collin Paran", source := "formal", is_primary := false },
       { name := "Philip R. Paran", source := "form_truncation", is_primary := false },
       { name := "Richard Paran", source := "middle_name_used", is_primary := false },
       { name := "Philip N. Paran", source := "form_truncation", is_primary := false },
       { name := "Navarro Paran", source := "middle_name_used", is_primary := false }]) ∧
    (∀ (full : String) (pref : Option String),
      full.isEmpty = false →
      2 ≤ ((pySplitWs full.data).map String.mk).length →
      (let parts := (pySplitWs full.data).map String.mk
       ({ name := parts.headD "" ++ " " ++ lastD "" parts, source := "form_truncation",
          is_primary := false } ∈ generateNameAliases full pref) ∧
       ({ name := initialOf (parts.headD "") ++ ". " ++ lastD "" parts,
          source := "form_truncation", is_primary := false } ∈
          generateNameAliases full pref) ∧
       (∀ p, pref = some p → p.isEmpty = false →
         lowerEq p (parts.headD "") = false →
         { name := p ++ " " ++ lastD "" parts, source := "preferred",
           is_primary := true } ∈ generateNameAliases full pref) ∧
       (∀ m ∈ (parts.drop 1).dropLast, (∀ p, pref = some p → m ≠ p) →
         { name := m ++ " " ++ lastD "" parts, source := "middle_name_used",
           is_primary := false } ∈ generateNameAliases full pref))) := by
  constructor
  · rfl
  · intro full pref he hlen
    have hGen : generateNameAliases full pref =
        generateNameAliasesCore ((pySplitWs full.data).map String.mk) pref := by
      unfold generateNameAliases
      rw [if_neg (by simp [he]), if_neg (by omega)]
    refine ⟨?_, ?_, ?_, ?_⟩
    · rw [hGen]; exact core_mem_firstLast _ _
    · rw [hGen]; exact core_mem_initials _ _
    · intro p hp hpe hne
      subst hp
      rw [hGen]; exact core_mem_preferred _ _ hpe hne
    · intro m hm hkeep
      rw [hGen]
      by_cases hlong : 2 < ((pySplitWs full.data).map String.mk).length
      · exact core_mem_middle _ _ m (by rw [if_pos hlong]; exact hm) hkeep
      · exfalso
        have h2 : ((pySplitWs full.data).map String.mk).length = 2 := by omega
        have hnil : (((pySplitWs full.data).map String.mk).drop 1).dropLast = [] := by
          apply List.eq_nil_of_length_eq_zero
          rw [List.length_dropLast, List.length_drop, h2]
        rw [hnil] at hm
        cases hm

/-- Witness for the amended C5, exercising the generic conjuncts at
`"Ann Lee"` and the preferred-name conjunct at the spec's example. -/
theorem alias_generation_amended_witness :
    ({ name := "Ann Lee", source := "form_truncation", is_primary := false } ∈
      generateNameAliases "Ann Lee" none) ∧
    ({ name := "Collin Paran", source := "preferred", is_primary := true } ∈
      generateNameAliases "Philip Collin Richard Navarro Paran" (some "Collin")) := by
  have t := alias_generation_amended
  constructor
  · exact (t.2 "Ann Lee" none (by decide) (by decide)).1
  · exact (t.2 "Philip Collin Richard Navarro Paran" (some "Collin") (by decide)
      (by decide)).2.2.1 "Collin" rfl (by decide) (by decide)

/-! ## C7: absent sections yield empty lists -/

/-- No `hl7:section` descendant of `root` carries a `templateId` child
with the given `root` attribute. -/
def noSectionWith (root : XElem) (tid : String) : Prop :=
  ∀ e ∈ root.descs, e.tag = h7 "section" →
    findPath e false [⟨h7 "templateId", .eq "root" tid⟩] = none

theorem findSection_eq_none (root : XElem) (tid : String) (h : noSectionWith root tid) :
    findSection root tid = none := by
  unfold findSection
  rw [List.find?_eq_none]
  intro s hs
  have hmem := List.mem_filter.mp hs
  have htag : s.tag = h7 "section" := by simpa using hmem.2
  rw [h s hmem.1 htag]
  simp

/-- **C7.** For every well-formed document tree with no section carrying
the allergies template identifier, parsing returns normally (the embedded
parser is a total function) with `allergies = []`; and the same holds for
every other absent section: its entity list is empty rather than an
error. -/
theorem absent_sections_yield_empty (root : XElem) :
    (noSectionWith root allergiesTid → (parseFile root).allergies = []) ∧
    (noSectionWith root medicationsTid → (parseFile root).medications = []) ∧
    (noSectionWith root problemsTid → (parseFile root).problems = []) ∧
    (noSectionWith root proceduresTid → (parseFile root).procedures = []) ∧
    (noSectionWith root resultsTid → (parseFile root).lab_results = []) ∧
    (noSectionWith root immunizationsTid → (parseFile root).immunizations = []) ∧
    (noSectionWith root vitalSignsTid → (parseFile root).vital_signs = []) := by
  refine ⟨?_, ?_, ?_, ?_, ?_, ?_, ?_⟩
  · intro h
    show parseAllergies root = []
    unfold parseAllergies
    rw [findSection_eq_none root allergiesTid h]
  · intro h
    show parseMedications root = []
    unfold parseMedications
    rw [findSection_eq_none root medicationsTid h]
  · intro h
    show parseProblems root = []
    unfold parseProblems
    rw [findSection_eq_none root problemsTid h]
  · intro h
    show parseProcedures root = []
    unfold parseProcedures
    rw [findSection_eq_none root proceduresTid h]
  · intro h
    show parseLabResults root = []
    unfold parseLabResults
    rw [findSection_eq_none root resultsTid h]
  · intro h
    show parseImmunizations root = []
    unfold parseImmunizations
    rw [findSection_eq_none root immunizationsTid h]
  · intro h
    show parseVitalSigns root = []
    unfold parseVitalSigns
    rw [findSection_eq_none root vitalSignsTid h]

/-- Witness for C7 at a concrete sectionless document. -/
theorem absent_sections_yield_empty_witness :
    (parseFile (XElem.mk "ClinicalDocument" [] [] none)).allergies = [] ∧
    (parseFile (XElem.mk "ClinicalDocument" [] [] none)).medications = [] := by
  have hno : ∀ tid, noSectionWith (XElem.mk "ClinicalDocument" [] [] none) tid := by
    intro tid e he
    simp [XElem.descs, XElem.descsList] at he
  have t := absent_sections_yield_empty (XElem.mk "ClinicalDocument" [] [] none)
  exact ⟨t.1 (hno _), t.2.1 (hno _)⟩

/-! ## C3: the shape of emitted dates -/

/-- The shape every emitted date field satisfies: absent, or a
10-character string `cccc-cc-cc` (hyphens at positions 4 and 7). -/
def dateShape (o : Option String) : Prop :=
  match o with
  | none => True
  | some s => ∃ a b c : List Char,
      s.data = a ++ '-' :: b ++ '-' :: c ∧ a.length = 4 ∧ b.length = 2 ∧ c.length = 2

/-- A strict `YYYY-MM-DD` test (digits in the non-hyphen positions). -/
def isIsoDate (s : String) : Bool :=
  match s.data with
  | [y1, y2, y3, y4, h1, m1, m2, h2, d1, d2] =>
    y1.isDigit && y2.isDigit && y3.isDigit && y4.isDigit && h1 = '-' &&
    m1.isDigit && m2.isDigit && h2 = '-' && d1.isDigit && d2.isDigit
  | _ => false

theorem shape_format (o : Option String) : dateShape (formatHl7Date o) := by
  match o with
  | none => exact True.intro
  | some s =>
    simp only [formatHl7Date]
    split
    · exact True.intro
    · split
      · next hlen =>
        refine ⟨(stripTz s.data).take 4, ((stripTz s.data).drop 4).take 2,
          ((stripTz s.data).drop 6).take 2, rfl, ?_, ?_, ?_⟩ <;>
          simp [List.length_take, List.length_drop] <;> omega
      · exact True.intro

/-- All date fields of a parse result, in document order. -/
def datesOf (r : ParseResult) : List (Option String) :=
  (match r.demographics with
   | some dg => [dg.birth_date]
   | none => []) ++
  r.medications.flatMap (fun m => [m.start_date, m.end_date]) ++
  r.problems.flatMap (fun p => [p.diagnosed_date, p.resolved_date]) ++
  r.procedures.map (fun p => p.date) ++
  r.lab_results.map (fun l => l.date) ++
  r.immunizations.map (fun i => i.date) ++
  r.vital_signs.map (fun v => v.date) ++
  [r.metadata.date]

theorem parseDemographics_date (root : XElem) (dg : DemographicsR)
    (h : parseDemographics root = some dg) : dateShape dg.birth_date := by
  unfold parseDemographics at h
  dsimp only at h
  repeat' split at h
  all_goals first
  | exact Option.noConfusion h
  | (injection h with h'; subst h'; exact shape_format _)

theorem parseMedications_dates (root : XElem) (m : MedR)
    (hm : m ∈ parseMedications root) : dateShape m.start_date ∧ dateShape m.end_date := by
  unfold parseMedications at hm
  split at hm
  · cases hm
  · split at hm
    · cases hm
    · obtain ⟨e, _, he⟩ := List.mem_filterMap.mp hm
      rw [parseMedEntry_eq_none] at he
      exact Option.noConfusion he

theorem parseProblemEntry_dates (e : XElem) (p : ProblemR)
    (h : parseProblemEntry e = some p) :
    dateShape p.diagnosed_date ∧ dateShape p.resolved_date := by
  unfold parseProblemEntry at h
  dsimp only at h
  repeat' split at h
  all_goals first
  | exact Option.noConfusion h
  | (injection h with h'; subst h';
     exact ⟨by first | exact True.intro | exact shape_format _,
       by first | exact True.intro | exact shape_format _⟩)

theorem parseProblems_dates (root : XElem) (p : ProblemR)
    (hp : p ∈ parseProblems root) :
    dateShape p.diagnosed_date ∧ dateShape p.resolved_date := by
  unfold parseProblems at hp
  split at hp
  · cases hp
  · split at hp
    · cases hp
    · obtain ⟨e, _, he⟩ := List.mem_filterMap.mp hp
      exact parseProblemEntry_dates e p he

theorem parseProcedureEntry_date (e : XElem) (p : ProcedureR)
    (h : parseProcedureEntry e = some p) : dateShape p.date := by
  unfold parseProcedureEntry at h
  dsimp only at h
  repeat' split at h
  all_goals first
  | exact Option.noConfusion h
  | (injection h with h'; subst h'; first | exact True.intro | exact shape_format _)

theorem parseProcedures_dates (root : XElem) (p : ProcedureR)
    (hp : p ∈ parseProcedures root) : dateShape p.date := by
  unfold parseProcedures at hp
  split at hp
  · cases hp
  · split at hp
    · cases hp
    · obtain ⟨e, _, he⟩ := List.mem_filterMap.mp hp
      exact parseProcedureEntry_date e p he

theorem parseLabOrganizer_date (e : XElem) (l : LabPanelR)
    (h : parseLabOrganizer e = some l) : dateShape l.date := by
  unfold parseLabOrganizer at h
  dsimp only at h
  repeat' split at h
  all_goals first
  | exact Option.noConfusion h
  | (injection h with h'; subst h'; first | exact True.intro | exact shape_format _)

theorem parseLabResults_dates (root : XElem) (l : LabPanelR)
    (hl : l ∈ parseLabResults root) : dateShape l.date := by
  unfold parseLabResults at hl
  split at hl
  · cases hl
  · split at hl
    · cases hl
    · obtain ⟨e, _, he⟩ := List.mem_filterMap.mp hl
      exact parseLabOrganizer_date e l he

theorem parseImmunizationEntry_date (e : XElem) (i : ImmunizationR)
    (h : parseImmunizationEntry e = some i) : dateShape i.date := by
  unfold parseImmunizationEntry at h
  dsimp only at h
  repeat' split at h
  all_goals first
  | exact Option.noConfusion h
  | (injection h with h'; subst h'; first | exact True.intro | exact shape_format _)

theorem parseImmunizations_dates (root : XElem) (i : ImmunizationR)
    (hi : i ∈ parseImmunizations root) : dateShape i.date := by
  unfold parseImmunizations at hi
  split at hi
  · cases hi
  · split at hi
    · cases hi
    · obtain ⟨e, _, he⟩ := List.mem_filterMap.mp hi
      exact parseImmunizationEntry_date e i he

theorem parseVitalOrganizer_date (e : XElem) (v : VitalSetR)
    (h : parseVitalOrganizer e = some v) : dateShape v.date := by
  unfold parseVitalOrganizer at h
  dsimp only at h
  repeat' split at h
  all_goals first
  | exact Option.noConfusion h
  | (injection h with h'; subst h'; first | exact True.intro | exact shape_format _)

theorem parseVitalSigns_dates (root : XElem) (v : VitalSetR)
    (hv : v ∈ parseVitalSigns root) : dateShape v.date := by
  unfold parseVitalSigns at hv
  split at hv
  · cases hv
  · split at hv
    · cases hv
    · obtain ⟨e, _, he⟩ := List.mem_filterMap.mp hv
      exact parseVitalOrganizer_date e v he

theorem parseMetadata_date (root : XElem) : dateShape (parseMetadata root).date := by
  unfold parseMetadata
  dsimp only
  split
  · exact shape_format _
  · exact True.intro

/-- **C3 (amended).** Every date field in any parser output (demographics
birth date, medication start/end, problem diagnosed/resolved, procedure,
lab-panel, immunization, vital-sign and metadata dates) is either absent
or a 10-character hyphenated string `cccc-cc-cc` built from the first 8
characters of the timezone-stripped source value; it is a digit-form
`YYYY-MM-DD` exactly when those source characters are digits — a
non-numeric source value is passed through, not rejected. -/
theorem parser_dates_shape_amended (root : XElem) :
    ∀ o ∈ datesOf (parseFile root), dateShape o := by
  intro o ho
  unfold datesOf at ho
  simp only [List.mem_append] at ho
  rcases ho with (((((((ho | ho) | ho) | ho) | ho) | ho) | ho) | ho)
  · rcases hd : (parseFile root).demographics with _ | dg
    · rw [hd] at ho; cases ho
    · rw [hd] at ho
      rcases List.mem_singleton.mp ho with rfl
      exact parseDemographics_date root dg hd
  · obtain ⟨m, hm, ho⟩ := List.mem_flatMap.mp ho
    have hd := parseMedications_dates root m hm
    rcases List.mem_cons.mp ho with rfl | ho
    · exact hd.1
    · rcases List.mem_singleton.mp ho with rfl
      exact hd.2
  · obtain ⟨p, hp, ho⟩ := List.mem_flatMap.mp ho
    have hd := parseProblems_dates root p hp
    rcases List.mem_cons.mp ho with rfl | ho
    · exact hd.1
    · rcases List.mem_singleton.mp ho with rfl
      exact hd.2
  · obtain ⟨p, hp, rfl⟩ := List.mem_map.mp ho
    exact parseProcedures_dates root p hp
  · obtain ⟨l, hl, rfl⟩ := List.mem_map.mp ho
    exact parseLabResults_dates root l hl
  · obtain ⟨i, hi, rfl⟩ := List.mem_map.mp ho
    exact parseImmunizations_dates root i hi
  · obtain ⟨v, hv, rfl⟩ := List.mem_map.mp ho
    exact parseVitalSigns_dates root v hv
  · rcases List.mem_singleton.mp ho with rfl
    exact parseMetadata_date root

/-- A well-formed document whose `birthTime` value is not a date. -/
def c3Doc : XElem :=
  .mk "ClinicalDocument" []
    [.mk (h7 "recordTarget") []
      [.mk (h7 "patientRole") []
        [.mk (h7 "patient") []
          [.mk (h7 "birthTime") [("value", "Xmas1999pm")] [] none] none] none] none] none

/-- **C3 counterexample.** The demographics parser emits
`birth_date = "Xmas-19-99"` for the (well-formed XML) input whose
`birthTime` value is `"Xmas1999pm"`: a string of the hyphenated shape but
not of the form `YYYY-MM-DD`, refuting "no parser ever emits a partial or
ambiguous date string". -/
theorem parser_dates_counterexample :
    (parseFile c3Doc).demographics =
      some { given_name := none, family_name := none, full_name := none
             birth_date := some "Xmas-19-99", gender := none, address := none } ∧
    isIsoDate "Xmas-19-99" = false := by
  constructor <;> rfl

/-- Witness for the amended C3 at a concrete document and date field. -/
theorem parser_dates_shape_amended_witness :
    datesOf (parseFile c3Doc) =
      [some "Xmas-19-99", none] ∧
    dateShape (some "Xmas-19-99") := by
  constructor
  · rfl
  · exact parser_dates_shape_amended c3Doc (some "Xmas-19-99") (by
      rw [show datesOf (parseFile c3Doc) = [some "Xmas-19-99", none] from rfl]
      exact List.mem_cons_self _ _)

end MyaView
